/-
Verification of the mock-hub request resolution engine.

The TypeScript sources are shallowly embedded: JS strings are modelled as
`List Char` (sequences of code units), JS records as association lists,
JS numbers as exact rationals (`ℚ`; IEEE rounding is not modelled, which is
faithful for the integral and short-decimal values appearing here), and
fallible or effectful code as explicit `Option`/`Except`/oracle parameters.
Each definition mirrors the function of the same name in the repository.
-/
import Mathlib

namespace MockHub

/-- JS strings are modelled as lists of characters. -/
abbrev Str := List Char

/-- `String.prototype.split(c)` for a single-character separator:
`''.split(c) = ['']`, and every separator occurrence starts a new part. -/
def splitOnChar (c : Char) : Str → List Str
  | [] => [[]]
  | x :: xs =>
    if x = c then [] :: splitOnChar c xs
    else
      match splitOnChar c xs with
      | [] => [[x]]
      | p :: ps => (x :: p) :: ps

/-- `value.endsWith('/')`-style normalization from `matcher.ts`:
strip one trailing slash unless the string has length ≤ 1. -/
def normalizePathSegment (value : Str) : Str :=
  if 1 < value.length ∧ value.getLast? = some '/' then value.dropLast else value

/-! ### Rule data model (scenarios/types.ts) -/

/-- The fixed HTTP method enumeration (`HttpMethod` in scenarios/types.ts).
The literals are uppercase in the source. -/
inductive HttpMethod
  | GET | POST | PUT | DELETE | PATCH | OPTIONS | HEAD
deriving DecidableEq, Repr

def HttpMethod.str : HttpMethod → Str
  | .GET => "GET".toList
  | .POST => "POST".toList
  | .PUT => "PUT".toList
  | .DELETE => "DELETE".toList
  | .PATCH => "PATCH".toList
  | .OPTIONS => "OPTIONS".toList
  | .HEAD => "HEAD".toList

/-- `ScenarioMatch`: declared header values may be `null`/`undefined`
(modelled `none`), meaning "header must merely be present". -/
structure ScenarioMatch where
  path : Str
  method : Option HttpMethod := none
  query : Option (List (Str × Str)) := none
  headers : Option (List (Str × Option Str)) := none
deriving DecidableEq, Repr

/-- `JsVal`: a JSON-like runtime value (the `unknown` bodies and parsed YAML
documents). `undefined` is represented by absence (`Option`). -/
inductive JsVal
  | null
  | bool (b : Bool)
  | num (q : ℚ)
  | str (s : Str)
  | arr (items : List JsVal)
  | obj (fields : List (Str × JsVal))

/-- `ScenarioRespond` (scenarios/types.ts): `status` is required. -/
structure ScenarioRespond where
  status : ℚ
  body : Option JsVal := none
  bodyFile : Option Str := none
  headers : Option (List (Str × Str)) := none
  delayMs : Option ℚ := none
  timeout : Option ℚ := none

structure ScenarioRule where
  id : Option Str := none
  «match» : ScenarioMatch
  respond : ScenarioRespond

/-- Request header values: `string | string[]` (an explicitly-`undefined`
record entry is modelled by wrapping in `Option` at the entry level). -/
inductive HeaderValue
  | str (v : Str)
  | arr (vs : List Str)
deriving DecidableEq, Repr

/-- `RequestContext` from rules/matcher.ts. Query values are modelled by
their `String(...)` coercion, with `none` standing for `null`. -/
structure RequestContext where
  method : Str
  path : Str
  headers : List (Str × Option HeaderValue)
  query : List (Str × Option Str)
deriving DecidableEq, Repr

structure RuleEvaluation where
  matched : Bool
  reason : Option Str := none
deriving DecidableEq, Repr

/-! ### Rule matcher (rules/matcher.ts) -/

def normalizeHeaderKey (key : Str) : Str := key.map Char.toLower

/-- Property lookup on a JS object built by `Object.fromEntries`: a later
entry with the same key overwrites an earlier one. -/
def jsObjGetLast (l : List (Str × α)) (k : Str) : Option α :=
  (l.reverse.find? (fun p => p.1 == k)).map (·.2)

def matchesPath (pattern actual : Str) : Bool :=
  if pattern == actual then true
  else if !(pattern.contains '*') then false
  else
    let parts := splitOnChar '*' pattern
    let start := parts.headD []
    let e := ((parts.get? 1).getD [])
    let normalizedStart := normalizePathSegment start
    let normalizedActual := normalizePathSegment actual
    let startsOk :=
      if normalizedStart == [] then true
      else normalizedActual == normalizedStart ||
        (normalizedStart ++ ['/']).isPrefixOf normalizedActual
    let endsOk := if e == [] then true else e.isSuffixOf normalizedActual
    startsOk && endsOk

def matchesMethod (m : ScenarioMatch) (method : Str) : Bool :=
  match m.method with
  | none => true
  | some mm => mm.str.map Char.toUpper == method.map Char.toUpper

/-- `String(undefined)` used when a missing header value is string-compared. -/
def jsUndefinedStr : Str := "undefined".toList

def matchesHeaders (m : ScenarioMatch) (headers : List (Str × Option HeaderValue)) : Bool :=
  match m.headers with
  | none => true
  | some hs =>
    let normalizedHeaders := headers.map (fun p => (normalizeHeaderKey p.1, p.2))
    hs.all fun p =>
      let headerValue : Option HeaderValue :=
        ((jsObjGetLast normalizedHeaders (normalizeHeaderKey p.1)).map id).join
      match p.2 with
      | none => headerValue.isSome
      | some v =>
        match headerValue with
        | some (.arr vs) => vs.contains v
        | some (.str s) => s == v
        | none => jsUndefinedStr == v

def headerMismatchReason (m : ScenarioMatch) (headers : List (Str × Option HeaderValue)) :
    Option Str :=
  match m.headers with
  | none => none
  | some hs =>
    let normalizedHeaders := headers.map (fun p => (normalizeHeaderKey p.1, p.2))
    hs.findSome? fun p =>
      let actual : Option HeaderValue :=
        ((jsObjGetLast normalizedHeaders (normalizeHeaderKey p.1)).map id).join
      match p.2 with
      | none =>
        match actual with
        | none => some ("header ".toList ++ p.1 ++ " missing".toList)
        | some _ => none
      | some expected =>
        match actual with
        | none => some ("header ".toList ++ p.1 ++ " missing".toList)
        | some (.arr vs) =>
          if vs.contains expected then none
          else some ("header ".toList ++ p.1 ++ " mismatch".toList)
        | some (.str s) =>
          if s == expected then none
          else some ("header ".toList ++ p.1 ++ " mismatch".toList)

def matchesQuery (m : ScenarioMatch) (query : List (Str × Option Str)) : Bool :=
  match m.query with
  | none => true
  | some qs => qs.all fun p =>
      match (jsObjGetLast query p.1).bind id with
      | none => false
      | some a => a == p.2

def queryMismatchReason (m : ScenarioMatch) (query : List (Str × Option Str)) : Option Str :=
  match m.query with
  | none => none
  | some qs => qs.findSome? fun p =>
      match (jsObjGetLast query p.1).bind id with
      | none => some ("query ".toList ++ p.1 ++ " missing".toList)
      | some a =>
        if a == p.2 then none
        else some ("query ".toList ++ p.1 ++ " mismatch".toList)

/-- `scoreMatchSpecificity` from rules/matcher.ts.  Note the JS truthiness
guard `if (match.path)`: an empty path pattern contributes nothing. -/
def scoreMatchSpecificity (m : ScenarioMatch) : Nat :=
  (if m.path ≠ [] then
    (if m.path.contains '*' then 1 else 10) +
      ((splitOnChar '/' m.path).filter (· ≠ [])).length
   else 0) +
  (if m.method.isSome then 5 else 0) +
  (match m.headers with | some hs => hs.length * 2 | none => 0) +
  (match m.query with | some qs => qs.length * 3 | none => 0)

def evaluateRule (rule : ScenarioRule) (request : RequestContext) : RuleEvaluation :=
  let m := rule.«match»
  if !(matchesPath m.path request.path) then
    { matched := false, reason := some "path mismatch".toList }
  else if !(matchesMethod m request.method) then
    { matched := false, reason := some "method mismatch".toList }
  else if !(matchesHeaders m request.headers) then
    { matched := false,
      reason := some ((headerMismatchReason m request.headers).getD "header mismatch".toList) }
  else if !(matchesQuery m request.query) then
    { matched := false,
      reason := some ((queryMismatchReason m request.query).getD "query mismatch".toList) }
  else
    { matched := true }

structure MatchingRule where
  rule : ScenarioRule
  ruleIndex : Nat

/-- The iteration of `findMatchingRule`: `best`/`bestScore` accumulate the
currently best strictly-improving match. -/
def findGo (request : RequestContext) :
    List ScenarioRule → Nat → Option MatchingRule → Int → Option MatchingRule
  | [], _, best, _ => best
  | rule :: rest, index, best, bestScore =>
    if (evaluateRule rule request).matched then
      if bestScore < (scoreMatchSpecificity rule.«match» : Int) then
        findGo request rest (index + 1)
          (some ⟨rule, index⟩) (scoreMatchSpecificity rule.«match»)
      else findGo request rest (index + 1) best bestScore
    else findGo request rest (index + 1) best bestScore

def findMatchingRule (rules : List ScenarioRule) (request : RequestContext) :
    Option MatchingRule :=
  findGo request rules 0 none (-1)

/-- The specificity formula exactly as the specification phrases it: no
truthiness guard on the path pattern. -/
def claimScore (m : ScenarioMatch) : Nat :=
  (if m.path.contains '*' then 1 else 10) +
    ((splitOnChar '/' m.path).filter (· ≠ [])).length +
  (if m.method.isSome then 5 else 0) +
  (match m.headers with | some hs => hs.length * 2 | none => 0) +
  (match m.query with | some qs => qs.length * 3 | none => 0)

/-- The subsequence of strictly-improving updates performed by `findGo` at
threshold `s`; its last element (if any) is the loop's final `best`. -/
def pickGo (request : RequestContext) :
    List ScenarioRule → Nat → Int → Option MatchingRule
  | [], _, _ => none
  | rule :: rest, index, s =>
    if (evaluateRule rule request).matched then
      if s < (scoreMatchSpecificity rule.«match» : Int) then
        some ((pickGo request rest (index + 1) (scoreMatchSpecificity rule.«match»)).getD
          ⟨rule, index⟩)
      else pickGo request rest (index + 1) s
    else pickGo request rest (index + 1) s

/-! ### Template engine (templating/types.ts, parser.ts, helpers.ts, render.ts) -/

inductive TemplateHelperName
  | uuid | now | increment
deriving DecidableEq, Repr

def TEMPLATE_HELPERS : List Str := ["uuid".toList, "now".toList, "increment".toList]

/-- `isAllowedHelper`, returning the typed helper name on success. -/
def asHelperName (s : Str) : Option TemplateHelperName :=
  if s == "uuid".toList then some .uuid
  else if s == "now".toList then some .now
  else if s == "increment".toList then some .increment
  else none

inductive TemplateToken
  | text (value : Str)
  | helper (name : TemplateHelperName)
deriving DecidableEq, Repr

inductive TemplateErrorCode
  | malformed | unknownHelper | argumentsNotAllowed | nestedHelper | unexpectedClose
deriving DecidableEq, Repr

/-- `TemplateError`. The `message` field is a constant per code in the
source and is omitted here. -/
structure TemplateError where
  code : TemplateErrorCode
  index : Nat
  helper : Option Str := none
deriving DecidableEq, Repr

structure TemplateParseResult where
  tokens : List TemplateToken
  errors : List TemplateError
  helpers : List TemplateHelperName
  hasTemplates : Bool
deriving DecidableEq, Repr

/-- `haystack.includes(needle)` for strings. -/
def strIncludes : Str → Str → Bool
  | [], needle => needle == []
  | c :: rest, needle => needle.isPrefixOf (c :: rest) || strIncludes rest needle

/-- `input.indexOf('}}')` on the remaining input: index of the first
close marker, if any. -/
def indexOfClose : Str → Option Nat
  | [] => none
  | c :: rest =>
    if c = '}' ∧ rest.take 1 = ['}'] then some 0
    else (indexOfClose rest).map (· + 1)

/-- The scanning loop of `parseTemplateString`: `tokens`/`errors`/`helpers`/
`hasTemplates` are the accumulators of the source's `while` loop, `buffer`
the pending text, and `pos` the current code-unit index (used in errors). -/
def parseGo (tokens : List TemplateToken) (errors : List TemplateError)
    (helpers : List TemplateHelperName) (hasTemplates : Bool)
    (buffer : Str) (pos : Nat) : Str → TemplateParseResult
  | [] =>
    { tokens := tokens ++ (if buffer = [] then [] else [.text buffer]),
      errors := errors, helpers := helpers, hasTemplates := hasTemplates }
  | c :: rest =>
    if c = '\\' ∧ rest.take 2 = ['{', '{'] then
      match indexOfClose (rest.drop 2) with
      | none =>
        parseGo tokens errors helpers hasTemplates (buffer ++ ['{', '{'])
          (pos + 3) (rest.drop 2)
      | some i =>
        parseGo tokens errors helpers hasTemplates
          (buffer ++ ['{', '{'] ++ (rest.drop 2).take i ++ ['}', '}'])
          (pos + 3 + i + 2) ((rest.drop 2).drop (i + 2))
    else if c = '{' ∧ rest.take 1 = ['{'] then
      let flushed := tokens ++ (if buffer = [] then [] else [.text buffer])
      match indexOfClose (rest.drop 1) with
      | none =>
        { tokens := flushed, errors := errors ++ [{ code := .malformed, index := pos }],
          helpers := helpers, hasTemplates := hasTemplates }
      | some i =>
        let content := (rest.drop 1).take i
        let step : List TemplateToken × List TemplateError × List TemplateHelperName :=
          if content = [] then
            ([], [{ code := .malformed, index := pos }], [])
          else if strIncludes content ['{', '{'] || strIncludes content ['}', '}'] then
            ([], [{ code := .nestedHelper, index := pos }], [])
          else if content.any Char.isWhitespace then
            ([], [{ code := .argumentsNotAllowed, index := pos, helper := some content }], [])
          else
            match asHelperName content with
            | some name => ([.helper name], [], [name])
            | none =>
              if TEMPLATE_HELPERS.any (fun hn => hn.isPrefixOf content && content ≠ hn) then
                ([], [{ code := .argumentsNotAllowed, index := pos, helper := some content }], [])
              else
                ([], [{ code := .unknownHelper, index := pos, helper := some content }], [])
        parseGo (flushed ++ step.1) (errors ++ step.2.1) (helpers ++ step.2.2) true
          [] (pos + 2 + i + 2) ((rest.drop 1).drop (i + 2))
    else if c = '}' ∧ rest.take 1 = ['}'] then
      parseGo tokens (errors ++ [{ code := .unexpectedClose, index := pos }]) helpers
        hasTemplates buffer (pos + 2) (rest.drop 1)
    else
      parseGo tokens errors helpers hasTemplates (buffer ++ [c]) (pos + 1) rest
termination_by input => input.length
decreasing_by
  all_goals simp_all [List.length_drop]
  all_goals omega

def parseTemplateString (input : Str) : TemplateParseResult :=
  parseGo [] [] [] false [] 0 input

/-! #### Decimal rendering of the increment counter -/

def digitChar (d : Nat) : Char := Char.ofNat (48 + d)

def natToDecimalAux : Nat → Str → Str
  | 0, acc => acc
  | n + 1, acc => natToDecimalAux ((n + 1) / 10) (digitChar ((n + 1) % 10) :: acc)
decreasing_by exact Nat.div_lt_self (Nat.succ_pos n) (by omega)

/-- `String(n)` for a non-negative safe integer. -/
def natToDecimal (n : Nat) : Str := if n = 0 then ['0'] else natToDecimalAux n []

/-! #### Rendering -/

/-- The mutable state visible to helper resolution: the owning runtime's
`counter` closure variable, plus how many `uuid`/`now` oracle values have
been consumed during this render. -/
structure HelperState where
  counter : Nat
  uuidCalls : Nat
  nowCalls : Nat
deriving DecidableEq, Repr

/-- `resolveHelper`: `uuid` and `now` draw from the ambient oracles `u`/`n`
(`crypto.randomUUID()` and the clock); `increment` advances the counter. -/
def resolveHelper (u n : Nat → Str) (name : TemplateHelperName) (st : HelperState) :
    Str × HelperState :=
  match name with
  | .uuid => (u st.uuidCalls, { st with uuidCalls := st.uuidCalls + 1 })
  | .now => (n st.nowCalls, { st with nowCalls := st.nowCalls + 1 })
  | .increment => (natToDecimal (st.counter + 1), { st with counter := st.counter + 1 })

/-- `mergeHelpers`: append each helper not already recorded. -/
def mergeHelpers (target : List TemplateHelperName) (hs : List TemplateHelperName) :
    List TemplateHelperName :=
  hs.foldl (fun acc h => if acc.contains h then acc else acc ++ [h]) target

/-- The token walk of `renderString`: concatenate text tokens and resolved
helper values, recording distinct helpers in first-seen order. -/
def renderTokensGo (u n : Nat → Str) (acc : Str) (used : List TemplateHelperName)
    (st : HelperState) : List TemplateToken → Str × List TemplateHelperName × HelperState
  | [] => (acc, used, st)
  | .text v :: ts => renderTokensGo u n (acc ++ v) used st ts
  | .helper h :: ts =>
    let r := resolveHelper u n h st
    renderTokensGo u n (acc ++ r.1) (mergeHelpers used [h]) r.2 ts

/-- `renderString` (templating/render.ts): parse, throw a
`TemplateRenderError` on any parse error, short-circuit template-free
strings without escapes, otherwise re-assemble the tokens. -/
def renderString (u n : Nat → Str) (value : Str) (st : HelperState) :
    Except (List TemplateError) (Str × List TemplateHelperName × HelperState) :=
  let parsed := parseTemplateString value
  if parsed.errors ≠ [] then .error parsed.errors
  else if !parsed.hasTemplates && !(strIncludes value ['\\', '{', '{']) then .ok (value, [], st)
  else .ok (renderTokensGo u n [] [] st parsed.tokens)

/-! #### Per-scenario template runtimes (server.ts) -/

/-- `createTemplateRuntime` returns a closure over `counter = 0`; the
closure state is modelled by the stored counter value. -/
def createTemplateRuntime : Nat := 0

/-- The server's `templateRuntimes` map: scenario id → runtime counter. -/
abbrev RuntimeMap := List (Str × Nat)

def rtGet (m : RuntimeMap) (k : Str) : Option Nat :=
  (m.find? (fun p => p.1 == k)).map (·.2)

def rtSet (m : RuntimeMap) (k : Str) (v : Nat) : RuntimeMap :=
  match m with
  | [] => [(k, v)]
  | p :: rest => if p.1 == k then (k, v) :: rest else p :: rtSet rest k v

/-- `getTemplateRuntime`: return the cached runtime for the scenario or
lazily create (and cache) a fresh one. -/
def getTemplateRuntime (m : RuntimeMap) (scenarioId : Str) : Nat × RuntimeMap :=
  match rtGet m scenarioId with
  | some c => (c, m)
  | none => (createTemplateRuntime, rtSet m scenarioId createTemplateRuntime)

/-- One render of a body string against a scenario's runtime, as performed
by the request handler; the closure mutation done by `nextIncrement` is
written back into the map. -/
def renderForScenario (u n : Nat → Str) (m : RuntimeMap) (scenarioId body : Str) :
    Except (List TemplateError) (Str × List TemplateHelperName) × RuntimeMap :=
  let g := getTemplateRuntime m scenarioId
  match renderString u n body ⟨g.1, 0, 0⟩ with
  | .ok r => (.ok (r.1, r.2.1), rtSet g.2 scenarioId r.2.2.counter)
  | .error e => (.error e, g.2)

/-- A sequence of renders against possibly different scenarios, returning
each render's outcome tagged with its scenario id. -/
def runRenders (u n : Nat → Str) (m : RuntimeMap) :
    List (Str × Str) →
      List (Str × Except (List TemplateError) (Str × List TemplateHelperName)) × RuntimeMap
  | [] => ([], m)
  | (sc, body) :: evs =>
    let r := renderForScenario u n m sc body
    let rest := runRenders u n r.2 evs
    ((sc, r.1) :: rest.1, rest.2)

/-! ### Auto-gen scenario names (server.ts) -/

def AUTO_GEN_PREFIX : Str := "auto-gen-".toList

/-- `String.prototype.replace(pat, '')`: remove the first occurrence. -/
def jsReplaceFirst : Str → Str → Str
  | [], _ => []
  | c :: rest, pat =>
    if pat.isPrefixOf (c :: rest) then (c :: rest).drop pat.length
    else c :: jsReplaceFirst rest pat

/-! #### ECMAScript `Number(string)` conversion

Modelled over exact rationals; the decimal, hex/octal/binary and
`Infinity` grammars of `StringNumericLiteral` are covered. IEEE-754
rounding and overflow to `Infinity` are not modelled, which is faithful
for the short literals appearing in scenario names. -/

inductive JsNum
  | nan | inf | val (q : ℚ)
deriving DecidableEq, Repr

def isJsWhitespace (c : Char) : Bool :=
  c.toNat = 9 ∨ c.toNat = 10 ∨ c.toNat = 11 ∨ c.toNat = 12 ∨ c.toNat = 13 ∨
    c.toNat = 32 ∨ c.toNat = 160

def jsTrim (s : Str) : Str :=
  ((s.dropWhile isJsWhitespace).reverse.dropWhile isJsWhitespace).reverse

def digitVal (c : Char) : Nat := c.toNat - 48

def digitsToNat (l : Str) : Nat := l.foldl (fun a c => a * 10 + digitVal c) 0

def radixDigitVal (c : Char) : Option Nat :=
  if '0' ≤ c ∧ c ≤ '9' then some (c.toNat - 48)
  else if 'a' ≤ c ∧ c ≤ 'f' then some (c.toNat - 87)
  else if 'A' ≤ c ∧ c ≤ 'F' then some (c.toNat - 55)
  else none

def parseRadixDigits (radix : Nat) (l : Str) : Option Nat :=
  if l = [] then none
  else
    l.foldl
      (fun acc c =>
        acc.bind fun a =>
          match radixDigitVal c with
          | some d => if d < radix then some (a * radix + d) else none
          | none => none)
      (some 0)

/-- Exponent part after `e`/`E`: optional sign, then digits. -/
def parseExponent (s : Str) : Option Int :=
  let core := fun (r : Str) (neg : Bool) =>
    if r ≠ [] ∧ r.all Char.isDigit then
      some (if neg then -(digitsToNat r : Int) else (digitsToNat r : Int))
    else none
  match s with
  | '+' :: r => core r false
  | '-' :: r => core r true
  | r => core r false

/-- `StrUnsignedDecimalLiteral` without the `Infinity` production. -/
def parseDecCore (s : Str) : Option ℚ :=
  let I := s.takeWhile Char.isDigit
  let r1 := s.dropWhile Char.isDigit
  match r1 with
  | [] => if I = [] then none else some (digitsToNat I : ℚ)
  | '.' :: r2 =>
    let F := r2.takeWhile Char.isDigit
    let r3 := r2.dropWhile Char.isDigit
    if I = [] ∧ F = [] then none
    else
      let base : ℚ := (digitsToNat I : ℚ) + (digitsToNat F : ℚ) / (10 : ℚ) ^ F.length
      match r3 with
      | [] => some base
      | e :: r4 =>
        if e = 'e' ∨ e = 'E' then (parseExponent r4).map (fun ex => base * (10 : ℚ) ^ ex)
        else none
  | e :: r4 =>
    if e = 'e' ∨ e = 'E' then
      if I = [] then none
      else (parseExponent r4).map (fun ex => (digitsToNat I : ℚ) * (10 : ℚ) ^ ex)
    else none

def jsStringToNumber (s : Str) : JsNum :=
  let t := jsTrim s
  if t = [] then .val 0
  else if t.take 2 = ['0', 'x'] ∨ t.take 2 = ['0', 'X'] then
    match parseRadixDigits 16 (t.drop 2) with
    | some v => .val v
    | none => .nan
  else if t.take 2 = ['0', 'o'] ∨ t.take 2 = ['0', 'O'] then
    match parseRadixDigits 8 (t.drop 2) with
    | some v => .val v
    | none => .nan
  else if t.take 2 = ['0', 'b'] ∨ t.take 2 = ['0', 'B'] then
    match parseRadixDigits 2 (t.drop 2) with
    | some v => .val v
    | none => .nan
  else
    let signed : Bool × Str :=
      if t.take 1 = ['-'] then (true, t.drop 1)
      else if t.take 1 = ['+'] then (false, t.drop 1)
      else (false, t)
    if signed.2 = "Infinity".toList then .inf
    else
      match parseDecCore signed.2 with
      | some q => .val (if signed.1 then -q else q)
      | none => .nan

/-- `parseAutoGenStatus` from server.ts: accept names starting with
`auto-gen-` whose remainder converts to a finite number. -/
def parseAutoGenStatus (scenarioName : Option Str) : Option ℚ :=
  match scenarioName with
  | none => none
  | some name =>
    if AUTO_GEN_PREFIX.isPrefixOf name then
      match jsStringToNumber (jsReplaceFirst name AUTO_GEN_PREFIX) with
      | .val q => some q
      | _ => none
    else none

/-! ### Scenario file validation (scenarios/validation.ts) -/

inductive ValidationSeverity
  | error | warning
deriving DecidableEq, Repr

structure ValidationError where
  file : Str
  path : Str
  ruleId : Option Str := none
  message : Str
  severity : ValidationSeverity
  line : Option Nat := none
  column : Option Nat := none
deriving DecidableEq, Repr

structure ValidationResult where
  scenario : Option JsVal := none
  errors : List ValidationError

/-- An error or warning reported by the external `yaml` parser
(message plus the head of `linePos`, when available). -/
structure YamlIssue where
  message : Str
  line : Option Nat := none
  column : Option Nat := none

/-- A document as returned by `YAML.parseDocument` (strict, unique keys):
the collaborating parser's errors, warnings and `toJS` value. -/
structure YamlDoc where
  errors : List YamlIssue := []
  warnings : List YamlIssue := []
  data : JsVal := .null

/-- JS truthiness of a runtime value (`NaN` is not representable here). -/
def jsTruthy : JsVal → Bool
  | .null => false
  | .bool b => b
  | .num q => q ≠ 0
  | .str s => s ≠ []
  | .arr _ => true
  | .obj _ => true

/-- Property access on a plain parsed object (keys are unique). -/
def jsGet (fields : List (Str × JsVal)) (k : Str) : Option JsVal :=
  (fields.find? (fun p => p.1 == k)).map (·.2)

def quoteStr (s : Str) : Str := '"' :: (s ++ ['"'])

def parseYamlStrict (filePath : Str) (doc : YamlDoc) :
    Option JsVal × List ValidationError :=
  let errors :=
    doc.errors.map (fun e =>
      { file := filePath, path := [], message := e.message, severity := .error,
        line := e.line, column := e.column : ValidationError }) ++
    doc.warnings.map (fun w =>
      { file := filePath, path := [], message := w.message, severity := .warning,
        line := w.line, column := w.column : ValidationError })
  if errors.any (fun e => e.severity == ValidationSeverity.error) then (none, errors)
  else (some doc.data, errors)

def ROOT_KEYS : List Str :=
  ["scenario".toList, "description".toList, "rules".toList, "version".toList]
def RULE_KEYS : List Str := ["id".toList, "match".toList, "respond".toList]
def MATCH_KEYS : List Str :=
  ["path".toList, "method".toList, "query".toList, "headers".toList]
def RESPOND_KEYS : List Str :=
  ["status".toList, "body".toList, "bodyFile".toList, "headers".toList,
   "delayMs".toList, "timeout".toList]
def VALID_METHODS : List Str :=
  ["GET".toList, "POST".toList, "PUT".toList, "DELETE".toList, "PATCH".toList,
   "OPTIONS".toList, "HEAD".toList]

/-- The `/^\d+\.\d+\.\d+$/` version check. -/
def versionMatches (s : Str) : Bool :=
  match splitOnChar '.' s with
  | [a, b, c] =>
    a ≠ [] && a.all Char.isDigit && b ≠ [] && b.all Char.isDigit &&
      c ≠ [] && c.all Char.isDigit
  | _ => false

def validateRootObject (value : JsVal) (filePath : Str) : List ValidationError :=
  match value with
  | .obj fields =>
    (fields.filterMap fun p =>
      if ROOT_KEYS.contains p.1 then none
      else some { file := filePath, path := p.1,
                  message := "Unknown root key ".toList ++ quoteStr p.1,
                  severity := .error : ValidationError }) ++
    (match jsGet fields "scenario".toList with
     | some (.str s) =>
       if jsTrim s = [] then
        [{ file := filePath, path := "scenario".toList,
           message := "Scenario name must be a non-empty string".toList,
           severity := .error }]
       else []
     | _ =>
       [{ file := filePath, path := "scenario".toList,
          message := "Scenario name must be a non-empty string".toList,
          severity := .error }]) ++
    (match jsGet fields "description".toList with
     | none => []
     | some (.str _) => []
     | some _ =>
       [{ file := filePath, path := "description".toList,
          message := "Description must be a string".toList, severity := .error }]) ++
    (match jsGet fields "version".toList with
     | none => []
     | some (.str v) =>
       if versionMatches v then []
       else
        [{ file := filePath, path := "version".toList,
           message := "Version ".toList ++ quoteStr v ++ " must match x.y.z".toList,
           severity := .error }]
     | some _ =>
       [{ file := filePath, path := "version".toList,
          message := "Version must be a string in x.y.z format".toList,
          severity := .error }]) ++
    (match jsGet fields "rules".toList with
     | some (.arr items) =>
       if items.length = 0 then
        [{ file := filePath, path := "rules".toList,
           message := "Rules must be a non-empty array".toList, severity := .error }]
       else []
     | _ =>
       [{ file := filePath, path := "rules".toList,
          message := "Rules must be a non-empty array".toList, severity := .error }])
  | _ =>
    [{ file := filePath, path := [],
       message := "Root document must be an object".toList, severity := .error }]

/-- Shorthand used below for per-rule errors. -/
def ruleErr (filePath pathKey message : Str) (ruleId : Option Str) : ValidationError :=
  { file := filePath, path := pathKey, message := message, severity := .error,
    ruleId := ruleId }

def validateRule (rule : JsVal) (filePath : Str) (index : Nat) : List ValidationError :=
  let basePath := "rules[".toList ++ natToDecimal index ++ "]".toList
  match rule with
  | .obj fields =>
    let ruleId : Option Str :=
      match jsGet fields "id".toList with
      | some (.str s) => some s
      | _ => none
    (fields.filterMap fun p =>
      if RULE_KEYS.contains p.1 then none
      else some (ruleErr filePath (basePath ++ ['.'] ++ p.1)
        ("Unknown rule key ".toList ++ quoteStr p.1) ruleId)) ++
    (match jsGet fields "id".toList with
     | none => []
     | some (.str s) =>
       if jsTrim s = [] then
        [ruleErr filePath (basePath ++ ".id".toList)
          "Rule id must be a non-empty string".toList ruleId]
       else []
     | some _ =>
       [ruleErr filePath (basePath ++ ".id".toList)
         "Rule id must be a non-empty string".toList ruleId]) ++
    (match jsGet fields "match".toList with
     | some (.obj mfields) =>
       (mfields.filterMap fun p =>
         if MATCH_KEYS.contains p.1 then none
         else some (ruleErr filePath (basePath ++ ".match.".toList ++ p.1)
           ("Unknown match key ".toList ++ quoteStr p.1) ruleId)) ++
       (match jsGet mfields "path".toList with
        | some (.str s) =>
          if jsTrim s = [] then
            [ruleErr filePath (basePath ++ ".match.path".toList)
              "path must be a non-empty string".toList ruleId]
          else
            (if s.head? = some '/' then []
             else [ruleErr filePath (basePath ++ ".match.path".toList)
               "path must start with /".toList ruleId]) ++
            (if 1 < s.count '*' then
              [ruleErr filePath (basePath ++ ".match.path".toList)
                "path supports at most one * wildcard".toList ruleId]
             else [])
        | _ =>
          [ruleErr filePath (basePath ++ ".match.path".toList)
            "path must be a non-empty string".toList ruleId]) ++
       (match jsGet mfields "method".toList with
        | none => []
        | some (.str s) =>
          if VALID_METHODS.contains s then []
          else [ruleErr filePath (basePath ++ ".match.method".toList)
            (quoteStr s ++ " is not a valid HTTP method".toList) ruleId]
        | some _ =>
          [ruleErr filePath (basePath ++ ".match.method".toList)
            "method must be a string".toList ruleId]) ++
       (match jsGet mfields "query".toList with
        | none => []
        | some (.obj qfields) =>
          qfields.filterMap fun p =>
            match p.2 with
            | .str _ => none
            | _ => some (ruleErr filePath
                (basePath ++ ".match.query.".toList ++ p.1)
                "query values must be strings".toList ruleId)
        | some _ =>
          [ruleErr filePath (basePath ++ ".match.query".toList)
            "query must be an object".toList ruleId]) ++
       (match jsGet mfields "headers".toList with
        | none => []
        | some (.obj hfields) =>
          hfields.filterMap fun p =>
            match p.2 with
            | .str _ => none
            | .null => none
            | _ => some (ruleErr filePath
                (basePath ++ ".match.headers.".toList ++ p.1)
                "header values must be strings or null".toList ruleId)
        | some _ =>
          [ruleErr filePath (basePath ++ ".match.headers".toList)
            "headers must be an object".toList ruleId])
     | _ =>
       [ruleErr filePath (basePath ++ ".match".toList)
         "match must be an object".toList ruleId]) ++
    (match jsGet fields "respond".toList with
     | some (.obj rfields) =>
       (rfields.filterMap fun p =>
         if RESPOND_KEYS.contains p.1 then none
         else some (ruleErr filePath (basePath ++ ".respond.".toList ++ p.1)
           ("Unknown respond key ".toList ++ quoteStr p.1) ruleId)) ++
       (match jsGet rfields "status".toList with
        | none =>
          [ruleErr filePath (basePath ++ ".respond.status".toList)
            "status is required".toList ruleId]
        | some (.num q) =>
          if q < 100 ∨ 599 < q then
            [ruleErr filePath (basePath ++ ".respond.status".toList)
              "status must be between 100 and 599".toList ruleId]
          else []
        | some _ =>
          [ruleErr filePath (basePath ++ ".respond.status".toList)
            "status must be a number".toList ruleId]) ++
       (if (jsGet rfields "body".toList).isSome ∧ (jsGet rfields "bodyFile".toList).isSome then
          [ruleErr filePath (basePath ++ ".respond".toList)
            "Only one of body or bodyFile may be provided".toList ruleId]
        else []) ++
       (match jsGet rfields "bodyFile".toList with
        | none => []
        | some (.str _) => []
        | some _ =>
          [ruleErr filePath (basePath ++ ".respond.bodyFile".toList)
            "bodyFile must be a string".toList ruleId]) ++
       (match jsGet rfields "headers".toList with
        | none => []
        | some (.obj hfields) =>
          hfields.filterMap fun p =>
            match p.2 with
            | .str _ => none
            | _ => some (ruleErr filePath
                (basePath ++ ".respond.headers.".toList ++ p.1)
                "header values must be strings".toList ruleId)
        | some _ =>
          [ruleErr filePath (basePath ++ ".respond.headers".toList)
            "headers must be an object".toList ruleId]) ++
       (match jsGet rfields "delayMs".toList with
        | none => []
        | some (.num q) =>
          if q < 0 then
            [ruleErr filePath (basePath ++ ".respond.delayMs".toList)
              "delayMs must be >= 0".toList ruleId]
          else []
        | some _ =>
          [ruleErr filePath (basePath ++ ".respond.delayMs".toList)
            "delayMs must be >= 0".toList ruleId]) ++
       (match jsGet rfields "timeout".toList with
        | none => []
        | some (.num q) =>
          if q < 0 then
            [ruleErr filePath (basePath ++ ".respond.timeout".toList)
              "timeout must be >= 0".toList ruleId]
          else []
        | some _ =>
          [ruleErr filePath (basePath ++ ".respond.timeout".toList)
            "timeout must be >= 0".toList ruleId])
     | _ =>
       [ruleErr filePath (basePath ++ ".respond".toList)
         "respond must be an object".toList ruleId])
  | _ => [ruleErr filePath basePath "Rule must be an object".toList none]

/-- JS `Set` membership (SameValueZero): value equality for primitives;
two distinct object/array literals are distinct identities. -/
def jsSameValuePrim : JsVal → JsVal → Bool
  | .str a, .str b => a == b
  | .num a, .num b => a == b
  | .bool a, .bool b => a == b
  | _, _ => false

/-- `validateRuleIds`: ids are skipped when falsy, duplicates reported.
The bare property access `rule.id` throws a `TypeError` when the rule
entry is `null` (the only non-object value on which JS property access
throws here; other primitives box and yield `undefined`), modelled as
`Except.error ()`. -/
def validateRuleIdsGo (filePath : Str) (seen : List JsVal) (index : Nat) :
    List JsVal → Except Unit (List ValidationError)
  | [] => .ok []
  | rule :: rest =>
    match rule with
    | .null => .error ()
    | _ =>
      let id : Option JsVal :=
        match rule with
        | .obj fs => jsGet fs "id".toList
        | _ => none
      match id with
      | none => validateRuleIdsGo filePath seen (index + 1) rest
      | some v =>
        if !(jsTruthy v) then validateRuleIdsGo filePath seen (index + 1) rest
        else
          let idStr : Option Str := match v with | .str s => some s | _ => none
          (validateRuleIdsGo filePath (seen ++ [v]) (index + 1) rest).map
            (fun es =>
              (if seen.any (fun w => jsSameValuePrim w v) then
                [{ file := filePath,
                   path := "rules[".toList ++ natToDecimal index ++ "].id".toList,
                   message := "Duplicate rule id".toList, severity := .error,
                   ruleId := idStr : ValidationError }]
               else []) ++ es)

def validateRuleIds (rules : List JsVal) (filePath : Str) :
    Except Unit (List ValidationError) :=
  validateRuleIdsGo filePath [] 0 rules

def RESERVED_SCENARIO_PREFIXES : List Str := [AUTO_GEN_PREFIX]

def validateScenarioName (name : Str) (filePath : Str) : List ValidationError :=
  RESERVED_SCENARIO_PREFIXES.filterMap fun p =>
    if p.isPrefixOf name then
      some { file := filePath, path := "scenario".toList,
             message := "Scenario name ".toList ++ quoteStr name ++
               " uses reserved prefix ".toList ++ quoteStr p,
             severity := .error }
    else none

/-- `data.rules` as read by `validateScenarioFile` after root validation. -/
def scenarioRulesOf (data : JsVal) : List JsVal :=
  match data with
  | .obj fs =>
    match jsGet fs "rules".toList with
    | some (.arr items) => items
    | _ => []
  | _ => []

/-- `validateScenarioFile`, with the file read and YAML parse of the
collaborating libraries supplied as the `YamlDoc` input. The `TypeError`
thrown by `validateRuleIds` on a `null` rule entry propagates out of the
function (the returned promise rejects), modelled as `Except.error ()`. -/
def validateScenarioFile (filePath : Str) (doc : YamlDoc) :
    Except Unit ValidationResult :=
  let pr := parseYamlStrict filePath doc
  match pr.1 with
  | none => .ok { errors := pr.2 }
  | some data =>
    if !(jsTruthy data) then .ok { errors := pr.2 }
    else
      let rootErrors := validateRootObject data filePath
      let errors := pr.2 ++ rootErrors
      if rootErrors ≠ [] then .ok { errors := errors }
      else
        let rules : List JsVal := scenarioRulesOf data
        let scenarioName : Str :=
          match data with
          | .obj fs =>
            match jsGet fs "scenario".toList with
            | some (.str s) => s
            | _ => []
          | _ => []
        let ruleErrors := (rules.enum.map (fun p => validateRule p.2 filePath p.1)).flatten
        match validateRuleIds rules filePath with
        | .error e => .error e
        | .ok idErrors =>
          let nameErrors := validateScenarioName scenarioName filePath
          let errors2 := errors ++ ruleErrors ++ idErrors ++ nameErrors
          if errors2.any (fun e => e.severity == ValidationSeverity.error) then
            .ok { errors := errors2 }
          else .ok { scenario := some data, errors := errors2 }

/-! ### Scenario loading (scenarios/loader.ts, validation-based version) -/

structure LoadedScenarioFile where
  data : JsVal
  sourcePath : Str
  sourceDir : Str

def scenarioNameOf (data : JsVal) : Str :=
  match data with
  | .obj fs =>
    match jsGet fs "scenario".toList with
    | some (.str s) => s
    | _ => []
  | _ => []

def validateScenarioSetGo (seen : List (Str × Str)) :
    List LoadedScenarioFile → List ValidationError
  | [] => []
  | sc :: rest =>
    let name := scenarioNameOf sc.data
    match (seen.find? (fun p => p.1 == name)).map (·.2) with
    | some _ =>
      { file := sc.sourcePath, path := "scenario".toList,
        message := "Duplicate scenario name ".toList ++ quoteStr name,
        severity := .error : ValidationError } :: validateScenarioSetGo seen rest
    | none => validateScenarioSetGo (seen ++ [(name, sc.sourcePath)]) rest

def validateScenarioSet (scenarios : List LoadedScenarioFile) (_sourceDir : Str) :
    List ValidationError :=
  validateScenarioSetGo [] scenarios

/-- The per-file loop of `loadScenarios`: a file whose validation result
carries any entry at all is skipped; its entries are accumulated. A
validation promise that rejects (the `TypeError` on a `null` rule entry)
aborts the loop immediately. -/
def collectScenarios (sourceDir : Str) (files : List (Str × YamlDoc)) :
    Except Unit (List LoadedScenarioFile × List ValidationError) :=
  match files with
  | [] => .ok ([], [])
  | (filePath, doc) :: rest =>
    match validateScenarioFile filePath doc with
    | .error e => .error e
    | .ok result =>
      match collectScenarios sourceDir rest with
      | .error e => .error e
      | .ok r =>
        if result.errors.length > 0 then .ok (r.1, result.errors ++ r.2)
        else
          match result.scenario with
          | some d => .ok (⟨d, filePath, sourceDir⟩ :: r.1, r.2)
          | none => .ok r

/-- What `loadScenarios` can throw: the propagated `TypeError` from
validation, or the aggregate `Error` built from the error-severity
entries. -/
inductive LoadFailure
  | typeError
  | validation (errors : List ValidationError)

/-- `loadScenarios` (the validation-based loader): directory traversal is a
collaborator, so the discovered `.yaml` files arrive as input. A thrown
aggregate error is modelled as `Except.error` carrying the error-severity
entries; warnings are printed, not returned; a `TypeError` escaping
validation propagates unchanged. -/
def loadScenarios (sourceDir : Option Str) (files : List (Str × YamlDoc)) :
    Except LoadFailure (List LoadedScenarioFile) :=
  match sourceDir with
  | none => .ok []
  | some dir =>
    match collectScenarios dir files with
    | .error _ => .error .typeError
    | .ok c =>
      let validationErrors :=
        c.2 ++ (if c.1.length > 0 then validateScenarioSet c.1 dir else [])
      let errorList := validationErrors.filter
        (fun e => e.severity == ValidationSeverity.error)
      if errorList.length > 0 then .error (.validation errorList) else .ok c.1

/-! ### Recursive body rendering (templating/render.ts) -/

mutual

/-- `renderTemplates`: recursively render a JSON-like value. A parse error
in any string aborts the whole render (`TemplateRenderError`). -/
def renderTemplates (u n : Nat → Str) (value : JsVal) (st : HelperState) :
    Except (List TemplateError) (JsVal × List TemplateHelperName × HelperState) :=
  match value with
  | .str s => (renderString u n s st).map (fun r => (.str r.1, r.2.1, r.2.2))
  | .arr items =>
    (renderTemplatesList u n items st).map (fun r => (.arr r.1, r.2.1, r.2.2))
  | .obj fields =>
    (renderTemplatesFields u n fields st).map (fun r => (.obj r.1, r.2.1, r.2.2))
  | v => .ok (v, [], st)

def renderTemplatesList (u n : Nat → Str) (items : List JsVal) (st : HelperState) :
    Except (List TemplateError) (List JsVal × List TemplateHelperName × HelperState) :=
  match items with
  | [] => .ok ([], [], st)
  | v :: rest =>
    match renderTemplates u n v st with
    | .error e => .error e
    | .ok r =>
      match renderTemplatesList u n rest r.2.2 with
      | .error e => .error e
      | .ok rr => .ok (r.1 :: rr.1, mergeHelpers r.2.1 rr.2.1, rr.2.2)

def renderTemplatesFields (u n : Nat → Str) (fields : List (Str × JsVal))
    (st : HelperState) :
    Except (List TemplateError)
      (List (Str × JsVal) × List TemplateHelperName × HelperState) :=
  match fields with
  | [] => .ok ([], [], st)
  | (k, v) :: rest =>
    match renderTemplates u n v st with
    | .error e => .error e
    | .ok r =>
      match renderTemplatesFields u n rest r.2.2 with
      | .error e => .error e
      | .ok rr => .ok ((k, r.1) :: rr.1, mergeHelpers r.2.1 rr.2.1, rr.2.2)

end

/-! ### Request handling (server/server.ts) -/

def HOP_BY_HOP_HEADERS : List Str :=
  ["connection".toList, "keep-alive".toList, "proxy-authenticate".toList,
   "proxy-authorization".toList, "te".toList, "trailer".toList,
   "transfer-encoding".toList, "upgrade".toList, "host".toList,
   "content-length".toList]

def isHopByHopHeader (key : Str) : Bool :=
  HOP_BY_HOP_HEADERS.contains (key.map Char.toLower)

/-- JS object property assignment `obj[k] = v`: update in place if the key
exists, append otherwise. -/
def jsObjSet (l : List (Str × Str)) (k v : Str) : List (Str × Str) :=
  match l with
  | [] => [(k, v)]
  | p :: rest => if p.1 == k then (k, v) :: rest else p :: jsObjSet rest k v

/-- `collectProxyResponseHeaders`: lowercase keys, drop hop-by-hop. -/
def collectProxyResponseHeaders (headers : List (Str × Str)) : List (Str × Str) :=
  headers.foldl
    (fun result p =>
      let normalized := p.1.map Char.toLower
      if isHopByHopHeader normalized then result else jsObjSet result normalized p.2)
    []

/-- `mergeHeaders`: rule header overrides on top of a base map. -/
def mergeHeaders (base : List (Str × Str)) (overrides : Option (List (Str × Str))) :
    List (Str × Str) :=
  match overrides with
  | none => base
  | some ov => ov.foldl (fun merged p => jsObjSet merged (p.1.map Char.toLower) p.2) base

/-- What the upstream produces for the (at most one) `fetch` of a request:
an oracle input, since the network is external. -/
structure UpstreamResponse where
  status : ℚ
  headers : List (Str × Str)
  bodyBytes : Str

inductive UpstreamOutcome
  | response (r : UpstreamResponse)
  | aborted
  | failed (message : Str)

inductive ProxyResult
  | success (status : ℚ) (headers : List (Str × Str)) (body : Option Str)
  | timeout
  | error (message : Str)

/-- `proxyRequest`: translate the upstream outcome (an `AbortError` becomes
`timeout`, other exceptions `error`); empty response bodies become absent
buffers.  Request-side serialization (`buildProxyHeaders`, body
forwarding) only influences the upstream, which is the oracle here. -/
def proxyRequest (outcome : UpstreamOutcome) : ProxyResult :=
  match outcome with
  | .response r =>
    .success r.status (collectProxyResponseHeaders r.headers)
      (if r.bodyBytes = [] then none else some r.bodyBytes)
  | .aborted => .timeout
  | .failed m => .error m

/-- What a handler run sends to the client. -/
inductive SentBody
  | empty
  | messageObj (message : Str)
  | bytes (b : Str)
  | mock (v : JsVal)
  | errorThrown

structure HandlerOutcome where
  status : ℚ
  headers : List (Str × Str)
  body : SentBody
  proxyContacted : Bool

/-- A loaded scenario as held by the server. -/
structure LoadedScenarioT where
  scenario : Str
  rules : List ScenarioRule
  sourceDir : Str

/-- `buildScenarioMap` followed by `Map.get`: for duplicate names the later
entry wins. -/
def scenarioMapGet (scenarios : List LoadedScenarioT) (k : Str) :
    Option LoadedScenarioT :=
  scenarios.reverse.find? (fun s => s.scenario == k)

/-- `getHeaderScenario`: first value of a multi-valued header. -/
def getHeaderScenario (headers : List (Str × Option HeaderValue)) : Option Str :=
  match ((jsObjGetLast headers "x-mockhub-scenario".toList).map id).join with
  | some (.arr vs) => vs.head?
  | some (.str v) => some v
  | none => none

/-- `handleRequest` (server.ts): the per-request decision pipeline.

External effects arrive as oracles: `upstream` is what the proxy target
would answer, `fileOracle dir file` the parsed contents of
`readBodyFile`, `u`/`n` the `uuid`/`now` sources, and `route` the
collaborating OpenAPI happy-path generator's response for the matched
route (if any).  Artificial delays (`sleep`) have no observable effect
here and event emission is an output-only side channel, so neither is
modelled.  The returned flag records whether the upstream was contacted.

On a template render error the handler re-throws and the framework
answers 500 (`SentBody.errorThrown`); the partially advanced increment
counter of such a failed render is not modelled. -/
def handleRequest (scenarios : List LoadedScenarioT) (rtm : RuntimeMap)
    (activeScenario : Option Str) (url method : Str)
    (headers : List (Str × Option HeaderValue)) (query : List (Str × Option Str))
    (proxyBaseUrl : Option Str) (upstream : UpstreamOutcome)
    (fileOracle : Str → Str → JsVal) (u n : Nat → Str)
    (route : Option (ℚ × Option JsVal)) : HandlerOutcome × RuntimeMap :=
  let isProxyEnabled := match proxyBaseUrl with | some b => b ≠ [] | none => false
  let headerScenario := getHeaderScenario headers
  let scenarioName := match headerScenario with | some h => some h | none => activeScenario
  let requestPath := (splitOnChar '?' url).headD []
  let autoGenStatus := parseAutoGenStatus scenarioName
  let loadedScenario := scenarioName.bind (scenarioMapGet scenarios)
  let matched : Option (LoadedScenarioT × MatchingRule) :=
    match loadedScenario with
    | some ls =>
      match findMatchingRule ls.rules ⟨method, requestPath, headers, query⟩ with
      | some m => some (ls, m)
      | none => none
    | none => none
  match matched with
  | some (ls, m) =>
    let respond := m.rule.respond
    let hasMockBody := respond.bodyFile.isSome || respond.body.isSome
    if isProxyEnabled && !hasMockBody then
      match proxyRequest upstream with
      | .timeout =>
        ({ status := 504, headers := [], body := .messageObj "Proxy timeout".toList,
           proxyContacted := true }, rtm)
      | .error _ =>
        ({ status := 502, headers := [], body := .messageObj "Proxy error".toList,
           proxyContacted := true }, rtm)
      | .success _pstatus pheaders pbody =>
        -- `respond.status ?? proxied.status`: `status` is required by the
        -- rule type, so the rule's status is always used.
        ({ status := respond.status, headers := mergeHeaders pheaders respond.headers,
           body := match pbody with | some b => .bytes b | none => .empty,
           proxyContacted := true }, rtm)
    else if respond.timeout.isSome then
      ({ status := 504, headers := [], body := .messageObj "Mock timeout".toList,
         proxyContacted := false }, rtm)
    else
      let body0 : Option JsVal :=
        match respond.bodyFile with
        | some f => some (fileOracle ls.sourceDir f)
        | none => respond.body
      let respHeaders :=
        match respond.headers with
        | some hs => hs.foldl (fun acc p => jsObjSet acc p.1 p.2) []
        | none => []
      match body0 with
      | none =>
        ({ status := respond.status, headers := respHeaders, body := .empty,
           proxyContacted := false }, rtm)
      | some bv =>
        let g := getTemplateRuntime rtm ls.scenario
        match renderTemplates u n bv ⟨g.1, 0, 0⟩ with
        | .ok r =>
          ({ status := respond.status, headers := respHeaders,
             body := match r.1 with | .null => .empty | v => .mock v,
             proxyContacted := false }, rtSet g.2 ls.scenario r.2.2.counter)
        | .error _ =>
          ({ status := 500, headers := [], body := .errorThrown,
             proxyContacted := false }, g.2)
  | none =>
    let fallback : HandlerOutcome × RuntimeMap :=
      if isProxyEnabled then
        match proxyRequest upstream with
        | .timeout =>
          ({ status := 504, headers := [], body := .messageObj "Proxy timeout".toList,
             proxyContacted := true }, rtm)
        | .error _ =>
          ({ status := 502, headers := [], body := .messageObj "Proxy error".toList,
             proxyContacted := true }, rtm)
        | .success pstatus pheaders pbody =>
          ({ status := pstatus, headers := pheaders,
             body := match pbody with | some b => .bytes b | none => .empty,
             proxyContacted := true }, rtm)
      else
        match route with
        | some (gstatus, gbody) =>
          ({ status := gstatus, headers := [],
             body := match gbody with
                     | some .null => .empty
                     | some v => .mock v
                     | none => .empty,
             proxyContacted := false }, rtm)
        | none =>
          ({ status := 404, headers := [], body := .messageObj "Not Found".toList,
             proxyContacted := false }, rtm)
    match autoGenStatus with
    | some q =>
      if q ≠ 0 then
        ({ status := q, headers := [], body := .empty, proxyContacted := false }, rtm)
      else fallback
    | none => fallback

/-! ### Specification-side definitions for the template claims -/

/-- The expected output for escaped-only template strings: each `\{{x}}`
escape is replaced by the literal `{{x}}` (backslash consumed, braces
preserved); everything else is copied verbatim. -/
def unescape : Str → Str
  | [] => []
  | c :: rest =>
    if c = '\\' ∧ rest.take 2 = ['{', '{'] then
      match indexOfClose (rest.drop 2) with
      | none => '{' :: '{' :: unescape (rest.drop 2)
      | some i =>
        '{' :: '{' ::
          ((rest.drop 2).take i ++ '}' :: '}' :: unescape ((rest.drop 2).drop (i + 2)))
    else c :: unescape rest
termination_by s => s.length
decreasing_by
  all_goals simp_all [List.length_drop]
  all_goals omega

/-- Template strings consisting only of plain text and complete escaped
brace sequences `\{{x}}` (with `x` free of `}}`): a plain character never
starts an unescaped `{{`, a bare `}}`, or an escape. -/
inductive EscapedOnly : Str → Prop
  | nil : EscapedOnly []
  | plain (c : Char) (rest : Str) :
      ¬(c = '\\' ∧ rest.take 2 = ['{', '{']) →
      ¬(c = '{' ∧ rest.take 1 = ['{']) →
      ¬(c = '}' ∧ rest.take 1 = ['}']) →
      EscapedOnly rest → EscapedOnly (c :: rest)
  | esc (lit rest : Str) :
      indexOfClose (lit ++ '}' :: '}' :: rest) = some lit.length →
      EscapedOnly rest →
      EscapedOnly ('\\' :: '{' :: '{' :: (lit ++ '}' :: '}' :: rest))

def isTextTok : TemplateToken → Bool
  | .text _ => true
  | .helper _ => false

/-- A body string containing exactly one `{{increment}}` occurrence, no
other helper, and no template error. -/
def IncBody (b : Str) : Prop :=
  (parseTemplateString b).errors = [] ∧
  (parseTemplateString b).hasTemplates = true ∧
  ∃ A B, (parseTemplateString b).tokens = A ++ TemplateToken.helper .increment :: B ∧
    (∀ t ∈ A, isTextTok t = true) ∧ (∀ t ∈ B, isTextTok t = true)

def tokenTextAt (v : Nat) : TemplateToken → Str
  | .text s => s
  | .helper _ => natToDecimal v

/-- The render of an increment-only body with the counter resolving to `v`. -/
def renderIncAt (b : Str) (v : Nat) : Str :=
  ((parseTemplateString b).tokens.map (tokenTextAt v)).flatten

/-- Expected outcomes of consecutive increment renders starting after `c`
prior renders against the same scenario: the counter values are `c+1`,
`c+2`, .... -/
def expectedIncOuts (c : Nat) :
    List Str → List (Except (List TemplateError) (Str × List TemplateHelperName))
  | [] => []
  | b :: bs => .ok (renderIncAt b (c + 1), [.increment]) :: expectedIncOuts (c + 1) bs

/-! ## Theorems -/

theorem splitOnChar_ne_nil (c : Char) (s : Str) : splitOnChar c s ≠ [] := by
  induction s with
  | nil => simp [splitOnChar]
  | cons x xs ih =>
    simp only [splitOnChar]
    split
    · simp
    · split
      · simp
      · simp

/-- If the separator does not occur, `split` returns the single whole string. -/
theorem splitOnChar_of_not_contains (c : Char) (s : Str) (h : s.contains c = false) :
    splitOnChar c s = [s] := by
  induction s with
  | nil => rfl
  | cons x xs ih =>
    simp only [List.contains_cons, Bool.or_eq_false_iff] at h
    have hx : ¬ x = c := by
      intro hxc; subst hxc; simp at h
    have hxs := ih h.2
    simp [splitOnChar, hx, hxs]

theorem contains_of_splitOnChar_pair {c : Char} {s a b : Str}
    (h : splitOnChar c s = [a, b]) : s.contains c = true := by
  cases hc : s.contains c with
  | true => rfl
  | false => rw [splitOnChar_of_not_contains c s hc] at h; simp at h

/-! ### C2: wildcard path matching -/

theorem matchesPath_no_wildcard (p a : Str) (h : p.contains '*' = false) :
    matchesPath p a = (p == a) := by
  by_cases hpa : p = a
  · subst hpa; simp [matchesPath]
  · have hbeq : (p == a) = false := by simp [hpa]
    unfold matchesPath
    rw [hbeq, h]
    simp

/-- C2 (amended): a pattern without `*` matches only by exact string
equality; for a pattern with exactly one `*`, split at the `*` into
`start` and `suf`, the pattern accepts an actual path iff it equals it
exactly, or the normalized prefix is empty / equals the normalized actual
path / is a prefix of it followed by `/`, and the suffix is empty or a
suffix of the *normalized* actual path (one trailing slash stripped). -/
theorem matchesPath_wildcard_spec (p a start suf : Str) :
    (p.contains '*' = false → (matchesPath p a = true ↔ p = a)) ∧
    (splitOnChar '*' p = [start, suf] →
      (matchesPath p a = true ↔
        (p = a ∨
          ((normalizePathSegment start = [] ∨
              normalizePathSegment a = normalizePathSegment start ∨
              (normalizePathSegment start ++ ['/']) <+: normalizePathSegment a) ∧
            (suf = [] ∨ suf <:+ normalizePathSegment a))))) := by
  constructor
  · intro h
    rw [matchesPath_no_wildcard p a h]
    simp [beq_iff_eq]
  · intro h
    have hc := contains_of_splitOnChar_pair h
    by_cases hpa : p = a
    · subst hpa
      simp [matchesPath]
    · have hbeq : (p == a) = false := by simp [hpa]
      have hform : matchesPath p a =
          ((if normalizePathSegment start == [] then true
            else (normalizePathSegment a == normalizePathSegment start ||
              (normalizePathSegment start ++ ['/']).isPrefixOf
                (normalizePathSegment a))) &&
           (if suf == [] then true
            else suf.isSuffixOf (normalizePathSegment a))) := by
        simp only [matchesPath, hbeq, hc, h, Bool.false_eq_true, if_false,
          Bool.not_true, List.headD_cons, List.get?_cons_succ, List.get?_cons_zero,
          Option.getD_some]
      rw [hform]
      by_cases hns : normalizePathSegment start = []
      · by_cases hsuf : suf = [] <;>
          simp [hns, hsuf, hpa, List.isSuffixOf_iff_suffix]
      · by_cases hsuf : suf = [] <;>
          simp [hns, hsuf, hpa, beq_iff_eq, List.isSuffixOf_iff_suffix,
            List.isPrefixOf_iff_prefix]

theorem matchesPath_wildcard_spec_witness :
    (matchesPath "/x".toList "/x".toList = true ↔ "/x".toList = "/x".toList) ∧
    (matchesPath "/api/*".toList "/api/v1/users".toList = true ↔
      ("/api/*".toList = "/api/v1/users".toList ∨
        ((normalizePathSegment "/api/".toList = [] ∨
            normalizePathSegment "/api/v1/users".toList =
              normalizePathSegment "/api/".toList ∨
            (normalizePathSegment "/api/".toList ++ ['/']) <+:
              normalizePathSegment "/api/v1/users".toList) ∧
          (([] : Str) = [] ∨ ([] : Str) <:+
            normalizePathSegment "/api/v1/users".toList)))) :=
  ⟨(matchesPath_wildcard_spec "/x".toList "/x".toList [] []).1 (by decide),
   (matchesPath_wildcard_spec "/api/*".toList "/api/v1/users".toList
      "/api/".toList []).2 (by decide)⟩

/-- C2 counterexample.  First: pattern `*/` against `/foo/` — the claim's
predicate holds (empty prefix; `/` is a suffix of the *actual* path), yet
`matchesPath` rejects, because the code tests the suffix against the
normalized actual path `/foo`.  Second: pattern `/a*b` against the actual
path `/a*b` — the claim's prefix check fails, yet `matchesPath` accepts by
the exact-equality escape that the claim's iff omits. -/
theorem matchesPath_claim_counterexample :
    (matchesPath "*/".toList "/foo/".toList = false ∧
      splitOnChar '*' ("*/".toList) = [[], "/".toList] ∧
      "/".toList <:+ "/foo/".toList) ∧
    (matchesPath "/a*b".toList "/a*b".toList = true ∧
      splitOnChar '*' ("/a*b".toList) = ["/a".toList, "b".toList] ∧
      ¬ (normalizePathSegment ("/a*b".toList) = normalizePathSegment ("/a".toList) ∨
        (normalizePathSegment ("/a".toList) ++ ['/']) <+:
          normalizePathSegment ("/a*b".toList))) := by
  exact ⟨⟨by decide, by decide, by decide⟩, ⟨by decide, by decide, by decide⟩⟩

/-! ### C1: findMatchingRule and specificity scoring -/

theorem findGo_eq_pickGo (request : RequestContext) (l : List ScenarioRule) :
    ∀ (index : Nat) (best : Option MatchingRule) (s : Int),
      findGo request l index best s =
        match pickGo request l index s with
        | some m => some m
        | none => best := by
  induction l with
  | nil => intro index best s; rfl
  | cons rule rest ih =>
    intro index best s
    simp only [findGo, pickGo]
    cases hm : (evaluateRule rule request).matched with
    | false => simp only [hm, Bool.false_eq_true, if_false]; exact ih _ _ _
    | true =>
      simp only [hm, if_true]
      by_cases hs : s < (scoreMatchSpecificity rule.«match» : Int)
      · simp only [if_pos hs]
        rw [ih]
        cases hpick : pickGo request rest (index + 1)
            (scoreMatchSpecificity rule.«match» : Int) with
        | none => simp
        | some m => simp
      · simp only [if_neg hs]
        exact ih _ _ _

theorem pickGo_eq_none_iff (request : RequestContext) (l : List ScenarioRule) :
    ∀ (index : Nat) (s : Int),
      pickGo request l index s = none ↔
        ∀ r ∈ l, (evaluateRule r request).matched = true →
          (scoreMatchSpecificity r.«match» : Int) ≤ s := by
  induction l with
  | nil => intro index s; simp [pickGo]
  | cons rule rest ih =>
    intro index s
    simp only [pickGo]
    cases hm : (evaluateRule rule request).matched with
    | false =>
      simp only [hm, Bool.false_eq_true, if_false]
      rw [ih]
      constructor
      · intro h r hr hmr
        rcases List.mem_cons.mp hr with rfl | hr'
        · rw [hm] at hmr; exact absurd hmr (by simp)
        · exact h r hr' hmr
      · intro h r hr hmr
        exact h r (List.mem_cons_of_mem _ hr) hmr
    | true =>
      simp only [hm, if_true]
      by_cases hs : s < (scoreMatchSpecificity rule.«match» : Int)
      · simp only [if_pos hs]
        constructor
        · intro h; exact absurd h (by simp)
        · intro h
          have := h rule (List.mem_cons_self _ _) hm
          omega
      · simp only [if_neg hs]
        rw [ih]
        constructor
        · intro h r hr hmr
          rcases List.mem_cons.mp hr with rfl | hr'
          · omega
          · exact h r hr' hmr
        · intro h r hr hmr
          exact h r (List.mem_cons_of_mem _ hr) hmr

theorem pickGo_eq_some (request : RequestContext) (l : List ScenarioRule) :
    ∀ (index : Nat) (s : Int) (m : MatchingRule),
      pickGo request l index s = some m →
      ∃ k, l.get? k = some m.rule ∧ m.ruleIndex = index + k ∧
        (evaluateRule m.rule request).matched = true ∧
        s < (scoreMatchSpecificity m.rule.«match» : Int) ∧
        (∀ k' r', l.get? k' = some r' → (evaluateRule r' request).matched = true →
          scoreMatchSpecificity r'.«match» ≤ scoreMatchSpecificity m.rule.«match») ∧
        (∀ k' r', k' < k → l.get? k' = some r' →
          (evaluateRule r' request).matched = true →
          scoreMatchSpecificity r'.«match» < scoreMatchSpecificity m.rule.«match») := by
  induction l with
  | nil => intro index s m h; simp [pickGo] at h
  | cons rule rest ih =>
    intro index s m h
    simp only [pickGo] at h
    cases hm : (evaluateRule rule request).matched with
    | false =>
      rw [hm] at h
      simp only [Bool.false_eq_true, if_false] at h
      obtain ⟨k, hget, hidx, hmr, hs, hbound, hstrict⟩ := ih (index + 1) s m h
      refine ⟨k + 1, by simpa using hget, by omega, hmr, hs, ?_, ?_⟩
      · intro k' r' hk' hm'
        cases k' with
        | zero =>
          simp only [List.get?_cons_zero, Option.some.injEq] at hk'
          subst hk'
          rw [hm] at hm'
          exact absurd hm' (by simp)
        | succ k'' => exact hbound k'' r' (by simpa using hk') hm'
      · intro k' r' hk'lt hk' hm'
        cases k' with
        | zero =>
          simp only [List.get?_cons_zero, Option.some.injEq] at hk'
          subst hk'
          rw [hm] at hm'
          exact absurd hm' (by simp)
        | succ k'' => exact hstrict k'' r' (by omega) (by simpa using hk') hm'
    | true =>
      rw [hm] at h
      simp only [if_true] at h
      by_cases hs : s < (scoreMatchSpecificity rule.«match» : Int)
      · rw [if_pos hs] at h
        cases hpick : pickGo request rest (index + 1)
            (scoreMatchSpecificity rule.«match» : Int) with
        | none =>
          rw [hpick] at h
          simp only [Option.getD_none, Option.some.injEq] at h
          subst h
          have hrest := (pickGo_eq_none_iff request rest (index + 1)
            (scoreMatchSpecificity rule.«match» : Int)).mp hpick
          refine ⟨0, by simp, by simp, hm, hs, ?_, ?_⟩
          · intro k' r' hk' hm'
            dsimp only
            cases k' with
            | zero =>
              simp only [List.get?_cons_zero, Option.some.injEq] at hk'
              subst hk'; exact le_refl _
            | succ k'' =>
              have hr'mem : r' ∈ rest := List.get?_mem (by simpa using hk')
              have := hrest r' hr'mem hm'
              omega
          · intro k' r' hk'lt _ _
            omega
        | some m' =>
          rw [hpick] at h
          simp only [Option.getD_some, Option.some.injEq] at h
          subst h
          obtain ⟨k, hget, hidx, hmr, hs', hbound, hstrict⟩ :=
            ih (index + 1) (scoreMatchSpecificity rule.«match» : Int) m' hpick
          refine ⟨k + 1, by simpa using hget, by omega, hmr, by omega, ?_, ?_⟩
          · intro k' r' hk' hm'
            cases k' with
            | zero =>
              simp only [List.get?_cons_zero, Option.some.injEq] at hk'
              subst hk'
              omega
            | succ k'' => exact hbound k'' r' (by simpa using hk') hm'
          · intro k' r' hk'lt hk' hm'
            cases k' with
            | zero =>
              simp only [List.get?_cons_zero, Option.some.injEq] at hk'
              subst hk'
              omega
            | succ k'' => exact hstrict k'' r' (by omega) (by simpa using hk') hm'
      · rw [if_neg hs] at h
        obtain ⟨k, hget, hidx, hmr, hs', hbound, hstrict⟩ := ih (index + 1) s m h
        refine ⟨k + 1, by simpa using hget, by omega, hmr, hs', ?_, ?_⟩
        · intro k' r' hk' hm'
          cases k' with
          | zero =>
            simp only [List.get?_cons_zero, Option.some.injEq] at hk'
            subst hk'
            omega
          | succ k'' => exact hbound k'' r' (by simpa using hk') hm'
        · intro k' r' hk'lt hk' hm'
          cases k' with
          | zero =>
            simp only [List.get?_cons_zero, Option.some.injEq] at hk'
            subst hk'
            omega
          | succ k'' => exact hstrict k'' r' (by omega) (by simpa using hk') hm'

/-- On rules with a non-empty path pattern (the validated case), the
source's score agrees with the specification's formula. -/
theorem scoreMatchSpecificity_eq_claimScore (m : ScenarioMatch) (h : m.path ≠ []) :
    scoreMatchSpecificity m = claimScore m := by
  simp only [scoreMatchSpecificity, claimScore, if_pos h]

/-- C1 (amended): for rule lists whose path patterns are all non-empty (as
validation guarantees), `findMatchingRule` returns no rule exactly when no
rule matches; and a returned rule is a matching rule at its declared
index, its specification-formula score is maximal among all matching
rules, and every matching rule declared earlier has a strictly smaller
score (so ties go to the first-declared rule and declaration order never
beats a strictly higher score). -/
theorem findMatchingRule_spec (rules : List ScenarioRule) (request : RequestContext)
    (hp : ∀ r ∈ rules, r.«match».path ≠ []) :
    ((findMatchingRule rules request = none) ↔
      ∀ r ∈ rules, (evaluateRule r request).matched = false) ∧
    (∀ m, findMatchingRule rules request = some m →
      rules.get? m.ruleIndex = some m.rule ∧
      (evaluateRule m.rule request).matched = true ∧
      (∀ j r', rules.get? j = some r' → (evaluateRule r' request).matched = true →
        claimScore r'.«match» ≤ claimScore m.rule.«match») ∧
      (∀ j r', j < m.ruleIndex → rules.get? j = some r' →
        (evaluateRule r' request).matched = true →
        claimScore r'.«match» < claimScore m.rule.«match»)) := by
  have hfind : findMatchingRule rules request =
      match pickGo request rules 0 (-1) with
      | some m => some m
      | none => none := findGo_eq_pickGo request rules 0 none (-1)
  constructor
  · rw [hfind]
    cases hpick : pickGo request rules 0 (-1) with
    | none =>
      dsimp only
      rw [pickGo_eq_none_iff] at hpick
      simp only [true_iff]
      intro r hr
      cases hmr : (evaluateRule r request).matched with
      | false => rfl
      | true =>
        have := hpick r hr hmr
        omega
    | some m =>
      dsimp only
      simp only [reduceCtorEq, false_iff]
      intro hall
      obtain ⟨k, hget, _, hmr, _, _, _⟩ := pickGo_eq_some request rules 0 (-1) m hpick
      have hmem : m.rule ∈ rules := List.get?_mem hget
      have := hall m.rule hmem
      rw [hmr] at this
      exact absurd this (by simp)
  · intro m hm
    rw [hfind] at hm
    cases hpick : pickGo request rules 0 (-1) with
    | none => rw [hpick] at hm; dsimp only at hm; exact absurd hm (by simp)
    | some m' =>
      rw [hpick] at hm
      dsimp only at hm
      simp only [Option.some.injEq] at hm
      subst hm
      obtain ⟨k, hget, hidx, hmr, _, hbound, hstrict⟩ :=
        pickGo_eq_some request rules 0 (-1) m' hpick
      have hidx0 : m'.ruleIndex = k := by omega
      refine ⟨by rw [hidx0]; exact hget, hmr, ?_, ?_⟩
      · intro j r' hj hm'
        have h1 := hbound j r' hj hm'
        have e1 := scoreMatchSpecificity_eq_claimScore _ (hp r' (List.get?_mem hj))
        have e2 := scoreMatchSpecificity_eq_claimScore _ (hp m'.rule (List.get?_mem hget))
        omega
      · intro j r' hjlt hj hm'
        have h1 := hstrict j r' (by omega) hj hm'
        have e1 := scoreMatchSpecificity_eq_claimScore _ (hp r' (List.get?_mem hj))
        have e2 := scoreMatchSpecificity_eq_claimScore _ (hp m'.rule (List.get?_mem hget))
        omega

theorem findMatchingRule_spec_witness :
    ((findMatchingRule [{ «match» := { path := "/x".toList }, respond := { status := 200 } }] { method := "GET".toList, path := "/x".toList, headers := [], query := [] } = none) ↔
      ∀ r ∈ [{ «match» := { path := "/x".toList }, respond := { status := 200 } : ScenarioRule }],
        (evaluateRule r { method := "GET".toList, path := "/x".toList, headers := [], query := [] }).matched = false) ∧
    (∀ m, findMatchingRule [{ «match» := { path := "/x".toList }, respond := { status := 200 } }] { method := "GET".toList, path := "/x".toList, headers := [], query := [] } = some m →
      [{ «match» := { path := "/x".toList }, respond := { status := 200 } : ScenarioRule }].get? m.ruleIndex = some m.rule ∧
      (evaluateRule m.rule { method := "GET".toList, path := "/x".toList, headers := [], query := [] }).matched = true ∧
      (∀ j r', [{ «match» := { path := "/x".toList }, respond := { status := 200 } : ScenarioRule }].get? j = some r' →
        (evaluateRule r' { method := "GET".toList, path := "/x".toList, headers := [], query := [] }).matched = true →
        claimScore r'.«match» ≤ claimScore m.rule.«match») ∧
      (∀ j r', j < m.ruleIndex →
        [{ «match» := { path := "/x".toList }, respond := { status := 200 } : ScenarioRule }].get? j = some r' →
        (evaluateRule r' { method := "GET".toList, path := "/x".toList, headers := [], query := [] }).matched = true →
        claimScore r'.«match» < claimScore m.rule.«match»)) :=
  findMatchingRule_spec
    [{ «match» := { path := "/x".toList }, respond := { status := 200 } }]
    { method := "GET".toList, path := "/x".toList, headers := [], query := [] }
    (by intro r hr; simp at hr; subst hr; decide)

/-! ### C8: auto-gen scenario name recognition -/

theorem digitChar_isDigit {d : Nat} (h : d < 10) :
    Char.isDigit (digitChar d) = true ∧ isJsWhitespace (digitChar d) = false ∧
      digitChar d ≠ '-' ∧ digitChar d ≠ '+' ∧ digitVal (digitChar d) = d := by
  interval_cases d <;> exact ⟨by decide, by decide, by decide, by decide, by decide⟩

theorem natToDecimalAux_mem (n : Nat) :
    ∀ acc, ∀ c ∈ natToDecimalAux n acc,
      (Char.isDigit c = true ∧ isJsWhitespace c = false ∧ c ≠ '-' ∧ c ≠ '+') ∨
        c ∈ acc := by
  induction n using Nat.strong_induction_on with
  | _ n ih =>
    intro acc c hc
    match n with
    | 0 => exact Or.inr (by rwa [natToDecimalAux] at hc)
    | m + 1 =>
      rw [natToDecimalAux] at hc
      rcases ih ((m + 1) / 10) (Nat.div_lt_self (Nat.succ_pos m) (by omega)) _ c hc with
        h | h
      · exact Or.inl h
      · rcases List.mem_cons.mp h with rfl | h'
        · have hd := digitChar_isDigit (Nat.mod_lt (m + 1) (by omega) : (m + 1) % 10 < 10)
          exact Or.inl ⟨hd.1, hd.2.1, hd.2.2.1, hd.2.2.2.1⟩
        · exact Or.inr h'

theorem natToDecimalAux_length (n : Nat) :
    ∀ acc : Str, acc.length ≤ (natToDecimalAux n acc).length := by
  induction n using Nat.strong_induction_on with
  | _ n ih =>
    intro acc
    match n with
    | 0 => simp [natToDecimalAux]
    | m + 1 =>
      rw [natToDecimalAux]
      have := ih ((m + 1) / 10) (Nat.div_lt_self (Nat.succ_pos m) (by omega))
        (digitChar ((m + 1) % 10) :: acc)
      simp only [List.length_cons] at this
      omega

theorem natToDecimalAux_length_eq (n : Nat) :
    ∀ acc : Str,
      (natToDecimalAux n acc).length = (natToDecimalAux n []).length + acc.length := by
  induction n using Nat.strong_induction_on with
  | _ n ih =>
    intro acc
    match n with
    | 0 => simp [natToDecimalAux]
    | m + 1 =>
      have hlt : (m + 1) / 10 < m + 1 := Nat.div_lt_self (Nat.succ_pos m) (by omega)
      rw [natToDecimalAux, natToDecimalAux, ih _ hlt (digitChar ((m + 1) % 10) :: acc),
        ih _ hlt (digitChar ((m + 1) % 10) :: [])]
      simp only [List.length_cons, List.length_nil]
      omega

theorem natToDecimalAux_foldl (n : Nat) :
    ∀ (acc : Str) (v : Nat),
      (natToDecimalAux n acc).foldl (fun a c => a * 10 + digitVal c) v =
        acc.foldl (fun a c => a * 10 + digitVal c)
          (v * 10 ^ (natToDecimalAux n []).length + n) := by
  induction n using Nat.strong_induction_on with
  | _ n ih =>
    intro acc v
    match n with
    | 0 => simp [natToDecimalAux]
    | m + 1 =>
      have hlt : (m + 1) / 10 < m + 1 := Nat.div_lt_self (Nat.succ_pos m) (by omega)
      have hL : (natToDecimalAux (m + 1) []).length =
          (natToDecimalAux ((m + 1) / 10) []).length + 1 := by
        rw [natToDecimalAux, natToDecimalAux_length_eq ((m + 1) / 10)
          (digitChar ((m + 1) % 10) :: [])]
        simp
      rw [natToDecimalAux, ih _ hlt (digitChar ((m + 1) % 10) :: acc) v,
        List.foldl_cons, hL,
        (digitChar_isDigit (Nat.mod_lt (m + 1) (by omega) : (m + 1) % 10 < 10)).2.2.2.2]
      congr 1
      calc (v * 10 ^ (natToDecimalAux ((m + 1) / 10) []).length + (m + 1) / 10) * 10 +
            (m + 1) % 10
          = v * (10 ^ (natToDecimalAux ((m + 1) / 10) []).length * 10) +
            ((m + 1) / 10 * 10 + (m + 1) % 10) := by ring
        _ = v * (10 ^ (natToDecimalAux ((m + 1) / 10) []).length * 10) + (m + 1) := by
            congr 1
            omega
        _ = v * 10 ^ ((natToDecimalAux ((m + 1) / 10) []).length + 1) + (m + 1) := by
            rw [pow_succ]

theorem digitsToNat_natToDecimal (n : Nat) : digitsToNat (natToDecimal n) = n := by
  unfold digitsToNat natToDecimal
  by_cases h : n = 0
  · subst h; decide
  · rw [if_neg h]
    have := natToDecimalAux_foldl n [] 0
    simpa using this

theorem natToDecimal_ne_nil (n : Nat) : natToDecimal n ≠ [] := by
  unfold natToDecimal
  by_cases h : n = 0
  · simp [h]
  · rw [if_neg h]
    match n, h with
    | m + 1, _ =>
      rw [natToDecimalAux]
      have := natToDecimalAux_length ((m + 1) / 10) (digitChar ((m + 1) % 10) :: [])
      intro hcon
      rw [hcon] at this
      simp at this

theorem natToDecimal_mem (n : Nat) :
    ∀ c ∈ natToDecimal n,
      Char.isDigit c = true ∧ isJsWhitespace c = false ∧ c ≠ '-' ∧ c ≠ '+' := by
  intro c hc
  unfold natToDecimal at hc
  by_cases h : n = 0
  · rw [if_pos h] at hc
    simp only [List.mem_singleton] at hc
    subst hc
    exact ⟨by decide, by decide, by decide, by decide⟩
  · rw [if_neg h] at hc
    rcases natToDecimalAux_mem n [] c hc with h' | h'
    · exact h'
    · simp at h'

theorem dropWhile_eq_self_of_all {p : Char → Bool} {l : Str}
    (h : ∀ c ∈ l, p c = false) : l.dropWhile p = l := by
  cases l with
  | nil => rfl
  | cons c r => simp [List.dropWhile_cons, h c (by simp)]

theorem takeWhile_eq_self_of_all {p : Char → Bool} {l : Str}
    (h : ∀ c ∈ l, p c = true) : l.takeWhile p = l := by
  induction l with
  | nil => rfl
  | cons c r ih =>
    simp only [List.takeWhile_cons, h c (by simp), if_true]
    rw [ih (fun x hx => h x (List.mem_cons_of_mem _ hx))]

theorem dropWhile_eq_nil_of_all {p : Char → Bool} {l : Str}
    (h : ∀ c ∈ l, p c = true) : l.dropWhile p = [] := by
  induction l with
  | nil => rfl
  | cons c r ih =>
    simp only [List.dropWhile_cons, h c (by simp), if_true]
    exact ih (fun x hx => h x (List.mem_cons_of_mem _ hx))

theorem jsTrim_eq_self {l : Str} (h : ∀ c ∈ l, isJsWhitespace c = false) :
    jsTrim l = l := by
  unfold jsTrim
  rw [dropWhile_eq_self_of_all h,
    dropWhile_eq_self_of_all (fun c hc => h c (List.mem_reverse.mp hc)),
    List.reverse_reverse]

theorem jsStringToNumber_natToDecimal (n : Nat) :
    jsStringToNumber (natToDecimal n) = .val (n : ℚ) := by
  have hmem := natToDecimal_mem n
  have hne := natToDecimal_ne_nil n
  have htrim : jsTrim (natToDecimal n) = natToDecimal n :=
    jsTrim_eq_self (fun c hc => (hmem c hc).2.1)
  have hpre : ∀ ch : Char, Char.isDigit ch = false →
      (natToDecimal n).take 2 ≠ ['0', ch] := by
    intro ch hch heq
    have hmem2 : ch ∈ (natToDecimal n).take 2 := by rw [heq]; simp
    have := (hmem ch (List.take_subset _ _ hmem2)).1
    rw [this] at hch
    cases hch
  have hsign1 : (natToDecimal n).take 1 ≠ ['-'] := by
    intro heq
    have hmem2 : '-' ∈ (natToDecimal n).take 1 := by rw [heq]; simp
    exact (hmem '-' (List.take_subset _ _ hmem2)).2.2.1 rfl
  have hsign2 : (natToDecimal n).take 1 ≠ ['+'] := by
    intro heq
    have hmem2 : '+' ∈ (natToDecimal n).take 1 := by rw [heq]; simp
    exact (hmem '+' (List.take_subset _ _ hmem2)).2.2.2 rfl
  have hinf : natToDecimal n ≠ "Infinity".toList := by
    intro heq
    have hI : 'I' ∈ natToDecimal n := by
      rw [heq]; decide
    have := (hmem 'I' hI).1
    exact absurd this (by decide)
  have hdec : parseDecCore (natToDecimal n) = some ((n : ℚ)) := by
    have htake : (natToDecimal n).takeWhile Char.isDigit = natToDecimal n :=
      takeWhile_eq_self_of_all (fun c hc => (hmem c hc).1)
    have hdrop : (natToDecimal n).dropWhile Char.isDigit = [] :=
      dropWhile_eq_nil_of_all (fun c hc => (hmem c hc).1)
    simp only [parseDecCore, htake, hdrop, if_neg hne]
    rw [digitsToNat_natToDecimal]
  simp only [jsStringToNumber, htrim, if_neg hne,
    if_neg (not_or.mpr ⟨hpre 'x' (by decide), hpre 'X' (by decide)⟩),
    if_neg (not_or.mpr ⟨hpre 'o' (by decide), hpre 'O' (by decide)⟩),
    if_neg (not_or.mpr ⟨hpre 'b' (by decide), hpre 'B' (by decide)⟩),
    if_neg hsign1, if_neg hsign2, if_neg hinf, hdec]
  norm_num

theorem isPrefixOf_append_self (pat s : Str) :
    pat.isPrefixOf (pat ++ s) = true :=
  List.isPrefixOf_iff_prefix.mpr (List.prefix_append pat s)

theorem jsReplaceFirst_of_isPrefixOf (s pat : Str) (hne : pat ≠ [])
    (h : pat.isPrefixOf s = true) : jsReplaceFirst s pat = s.drop pat.length := by
  cases s with
  | nil =>
    cases pat with
    | nil => exact absurd rfl hne
    | cons c r => simp [List.isPrefixOf] at h
  | cons c rest => simp [jsReplaceFirst, h]

/-- C8 (amended): a name is recognized as auto-gen exactly when it starts
with the literal `auto-gen-` and the remainder converts to a finite JS
number — not only integer literals.  Every decimal integer suffix is
recognized with its value; a suffix that converts to `NaN` is rejected;
and names not starting with the prefix are rejected. -/
theorem parseAutoGenStatus_spec :
    (∀ n : Nat,
      parseAutoGenStatus (some (AUTO_GEN_PREFIX ++ natToDecimal n)) = some (n : ℚ)) ∧
    (∀ s : Str, jsStringToNumber s = .nan →
      parseAutoGenStatus (some (AUTO_GEN_PREFIX ++ s)) = none) ∧
    (∀ s : Str, ¬ AUTO_GEN_PREFIX <+: s → parseAutoGenStatus (some s) = none) := by
  have hne : AUTO_GEN_PREFIX ≠ [] := by decide
  have hrepl : ∀ s : Str, jsReplaceFirst (AUTO_GEN_PREFIX ++ s) AUTO_GEN_PREFIX = s := by
    intro s
    rw [jsReplaceFirst_of_isPrefixOf _ _ hne (isPrefixOf_append_self _ s),
      List.drop_left]
  refine ⟨?_, ?_, ?_⟩
  · intro n
    simp only [parseAutoGenStatus, isPrefixOf_append_self, if_true, hrepl,
      jsStringToNumber_natToDecimal]
  · intro s hs
    simp only [parseAutoGenStatus, isPrefixOf_append_self, if_true, hrepl, hs]
  · intro s hs
    have : AUTO_GEN_PREFIX.isPrefixOf s = false := by
      cases hb : AUTO_GEN_PREFIX.isPrefixOf s with
      | false => rfl
      | true => exact absurd (List.isPrefixOf_iff_prefix.mp hb) hs
    simp only [parseAutoGenStatus, this, Bool.false_eq_true, if_false]

theorem parseAutoGenStatus_spec_witness :
    parseAutoGenStatus (some (AUTO_GEN_PREFIX ++ natToDecimal 507)) = some (507 : ℚ) ∧
    parseAutoGenStatus (some (AUTO_GEN_PREFIX ++ "abc".toList)) = none ∧
    parseAutoGenStatus (some "PartnerDown".toList) = none :=
  ⟨parseAutoGenStatus_spec.1 507,
   parseAutoGenStatus_spec.2.1 "abc".toList (by decide),
   parseAutoGenStatus_spec.2.2 "PartnerDown".toList (by decide)⟩

/-- C8 counterexample: suffixes that are not integer literals are
recognized by the code.  `auto-gen-1.5` parses to `1.5`, `auto-gen-1e2`
to `100`, and the empty suffix of `auto-gen-` converts to `0` — each one a
finite JS number, so `parseAutoGenStatus` accepts all three, contradicting
the claim that such suffixes are never recognized. -/
theorem parseAutoGenStatus_claim_counterexample :
    (parseAutoGenStatus (some "auto-gen-1.5".toList)).isSome = true ∧
    (parseAutoGenStatus (some "auto-gen-1e2".toList)).isSome = true ∧
    parseAutoGenStatus (some "auto-gen-".toList) = some (0 : ℚ) := by
  refine ⟨rfl, rfl, rfl⟩

/-! ### C3: rule-level timeout -/

/-- C3 (amended): when a matched rule's `respond.timeout` is set and the
proxy-with-overrides branch is not taken (no proxy configured, or the
rule supplies a `body`/`bodyFile`), the handler always answers 504 with
the fixed `Mock timeout` message — never the configured status — and the
upstream is not contacted. -/
theorem handleRequest_timeout_spec
    (scenarios : List LoadedScenarioT) (rtm : RuntimeMap)
    (activeScenario : Option Str) (url method : Str)
    (headers : List (Str × Option HeaderValue)) (query : List (Str × Option Str))
    (proxyBaseUrl : Option Str) (upstream : UpstreamOutcome)
    (fileOracle : Str → Str → JsVal) (u n : Nat → Str)
    (route : Option (ℚ × Option JsVal))
    (ls : LoadedScenarioT) (m : MatchingRule)
    (hls : (match getHeaderScenario headers with
            | some h => some h
            | none => activeScenario).bind (scenarioMapGet scenarios) = some ls)
    (hm : findMatchingRule ls.rules
      ⟨method, (splitOnChar '?' url).headD [], headers, query⟩ = some m)
    (ht : m.rule.respond.timeout.isSome = true)
    (hnp : (match proxyBaseUrl with | some b => b ≠ [] | none => false) = false ∨
      (m.rule.respond.bodyFile.isSome || m.rule.respond.body.isSome) = true) :
    handleRequest scenarios rtm activeScenario url method headers query proxyBaseUrl
      upstream fileOracle u n route =
      ({ status := 504, headers := [], body := .messageObj "Mock timeout".toList,
         proxyContacted := false }, rtm) := by
  simp only [handleRequest, hls, hm]
  rcases hnp with h | h
  · cases proxyBaseUrl with
    | none => simp [ht]
    | some b =>
      have hb : b = [] := by simpa using h
      subst hb
      simp [ht]
  · simp [h, ht]

theorem handleRequest_timeout_spec_witness :
    handleRequest
      [⟨"T".toList,
        [{ «match» := { path := "/x".toList },
           respond := { status := 200, timeout := some 50 } }], "dir".toList⟩]
      [] (some "T".toList) "/x".toList "GET".toList [] [] none .aborted
      (fun _ _ => .null) (fun _ => []) (fun _ => []) none =
      ({ status := 504, headers := [], body := .messageObj "Mock timeout".toList,
         proxyContacted := false }, []) :=
  handleRequest_timeout_spec
    [⟨"T".toList,
      [{ «match» := { path := "/x".toList },
         respond := { status := 200, timeout := some 50 } }], "dir".toList⟩]
    [] (some "T".toList) "/x".toList "GET".toList [] [] none .aborted
    (fun _ _ => .null) (fun _ => []) (fun _ => []) none
    ⟨"T".toList,
      [{ «match» := { path := "/x".toList },
         respond := { status := 200, timeout := some 50 } }], "dir".toList⟩
    ⟨{ «match» := { path := "/x".toList },
       respond := { status := 200, timeout := some 50 } }, 0⟩
    rfl rfl rfl (Or.inl rfl)

/-- C3 counterexample: proxy configured, matched rule has
`respond.timeout = 50`, `status = 200` and no body, and the upstream
responds in time with 418 — the handler relays the rule's configured
status 200 (with the proxied body) instead of the claimed fixed 504
`Mock timeout` response.  The configured status IS sent to the client. -/
theorem handleRequest_timeout_claim_counterexample :
    handleRequest
      [⟨"T".toList,
        [{ «match» := { path := "/x".toList },
           respond := { status := 200, timeout := some 50 } }], "dir".toList⟩]
      [] (some "T".toList) "/x".toList "GET".toList [] []
      (some "http://up".toList) (.response ⟨418, [], []⟩)
      (fun _ _ => .null) (fun _ => []) (fun _ => []) none =
      ({ status := 200, headers := [], body := .empty, proxyContacted := true }, []) :=
  rfl

/-! ### C4: auto-gen status resolution -/

/-- C4 (amended): when the resolved scenario name parses as a NONZERO
auto-gen status and no rule of a loaded scenario matches, the handler
responds with exactly that status and an empty body, and the upstream
proxy is never contacted even when configured. -/
theorem handleRequest_autogen_spec
    (scenarios : List LoadedScenarioT) (rtm : RuntimeMap)
    (activeScenario : Option Str) (url method : Str)
    (headers : List (Str × Option HeaderValue)) (query : List (Str × Option Str))
    (proxyBaseUrl : Option Str) (upstream : UpstreamOutcome)
    (fileOracle : Str → Str → JsVal) (u n : Nat → Str)
    (route : Option (ℚ × Option JsVal)) (q : ℚ)
    (hq : parseAutoGenStatus (match getHeaderScenario headers with
            | some h => some h
            | none => activeScenario) = some q)
    (hq0 : q ≠ 0)
    (hnm : ∀ ls, (match getHeaderScenario headers with
            | some h => some h
            | none => activeScenario).bind (scenarioMapGet scenarios) = some ls →
      findMatchingRule ls.rules
        ⟨method, (splitOnChar '?' url).headD [], headers, query⟩ = none) :
    handleRequest scenarios rtm activeScenario url method headers query proxyBaseUrl
      upstream fileOracle u n route =
      ({ status := q, headers := [], body := .empty, proxyContacted := false }, rtm) := by
  simp only [handleRequest, hq]
  cases hls : (match getHeaderScenario headers with
      | some h => some h
      | none => activeScenario).bind (scenarioMapGet scenarios) with
  | none => simp [hq0]
  | some ls =>
    dsimp only
    rw [hnm ls hls]
    simp [hq0]

theorem handleRequest_autogen_spec_witness :
    handleRequest [] [] (some "auto-gen-503".toList) "/x".toList "GET".toList [] []
      (some "http://up".toList) (.response ⟨200, [], "hi".toList⟩)
      (fun _ _ => .null) (fun _ => []) (fun _ => []) none =
      ({ status := 503, headers := [], body := SentBody.empty,
         proxyContacted := false }, []) :=
  handleRequest_autogen_spec [] [] (some "auto-gen-503".toList) "/x".toList
    "GET".toList [] [] (some "http://up".toList) (.response ⟨200, [], "hi".toList⟩)
    (fun _ _ => .null) (fun _ => []) (fun _ => []) none 503
    (by rfl) (by norm_num) (by intro ls hls; simp [scenarioMapGet] at hls)

/-- C4 counterexample: the scenario name `auto-gen-0` parses to the
auto-gen status 0, no scenario is loaded, and a proxy is configured — but
0 is falsy in JS, so the handler skips the auto-gen branch, contacts the
upstream, and relays its 200 response instead of answering with status 0
and an empty body. -/
theorem handleRequest_autogen_claim_counterexample :
    parseAutoGenStatus (some "auto-gen-0".toList) = some 0 ∧
    handleRequest [] [] (some "auto-gen-0".toList) "/x".toList "GET".toList [] []
      (some "http://up".toList) (.response ⟨200, [], "hi".toList⟩)
      (fun _ _ => .null) (fun _ => []) (fun _ => []) none =
      ({ status := 200, headers := [], body := .bytes "hi".toList,
         proxyContacted := true }, []) :=
  ⟨rfl, rfl⟩

/-! ### C5: validateScenarioFile result shape -/

theorem validateRootObject_severity (v : JsVal) (f : Str) :
    ∀ e ∈ validateRootObject v f, e.severity = ValidationSeverity.error := by
  intro e he
  cases v with
  | obj fields =>
    simp only [validateRootObject, List.mem_append] at he
    rcases he with ((((h | h) | h) | h) | h)
    · rcases List.mem_filterMap.mp h with ⟨p, _, hp⟩
      split at hp
      · simp at hp
      · rw [Option.some.injEq] at hp
        rw [← hp]
    · split at h <;> (try split at h) <;> simp_all
    · split at h <;> simp_all
    · split at h <;> simp_all
    · split at h <;> (try split at h) <;> simp_all
  | null => simp only [validateRootObject, List.mem_singleton] at he; subst he; rfl
  | bool b => simp only [validateRootObject, List.mem_singleton] at he; subst he; rfl
  | num q => simp only [validateRootObject, List.mem_singleton] at he; subst he; rfl
  | str s => simp only [validateRootObject, List.mem_singleton] at he; subst he; rfl
  | arr items => simp only [validateRootObject, List.mem_singleton] at he; subst he; rfl

theorem any_error_exists (l : List ValidationError)
    (hl : l.any (fun e => e.severity == ValidationSeverity.error) = true) :
    ∃ e ∈ l, e.severity = ValidationSeverity.error := by
  rcases List.any_eq_true.mp hl with ⟨e, he, hee⟩
  exact ⟨e, he, by simpa using hee⟩

theorem any_error_false_all_warning (l : List ValidationError)
    (hl : l.any (fun e => e.severity == ValidationSeverity.error) = false) :
    ∀ e ∈ l, e.severity = ValidationSeverity.warning := by
  intro e he
  have := List.any_eq_false.mp hl e he
  cases hs : e.severity with
  | warning => rfl
  | error => rw [hs] at this; simp at this

theorem parseYamlStrict_spec (filePath : Str) (doc : YamlDoc) :
    ((parseYamlStrict filePath doc).1 = none →
      ∃ e ∈ (parseYamlStrict filePath doc).2,
        e.severity = ValidationSeverity.error) ∧
    (∀ d, (parseYamlStrict filePath doc).1 = some d → d = doc.data ∧
      ∀ e ∈ (parseYamlStrict filePath doc).2,
        e.severity = ValidationSeverity.warning) := by
  unfold parseYamlStrict
  dsimp only
  split
  next ha =>
    exact ⟨fun _ => any_error_exists _ ha, fun d hd => by simp at hd⟩
  next ha =>
    refine ⟨fun h => by simp at h, fun d hd => ?_⟩
    simp only [Option.some.injEq] at hd
    exact ⟨hd.symm, any_error_false_all_warning _ (by simpa using ha)⟩

/-- `validateRuleIds` throws the `TypeError` exactly when the rules list
contains a `null` entry, independently of the accumulator state. -/
theorem validateRuleIdsGo_error_iff (f : Str) :
    ∀ (rules seen : List JsVal) (i : Nat),
      (validateRuleIdsGo f seen i rules = .error () ↔ JsVal.null ∈ rules) := by
  intro rules
  induction rules with
  | nil => intro seen i; simp [validateRuleIdsGo]
  | cons rule rest ih =>
    intro seen i
    cases rule with
    | null => simp [validateRuleIdsGo]
    | bool b => simpa [validateRuleIdsGo] using ih seen (i + 1)
    | num q => simpa [validateRuleIdsGo] using ih seen (i + 1)
    | str s => simpa [validateRuleIdsGo] using ih seen (i + 1)
    | arr items => simpa [validateRuleIdsGo] using ih seen (i + 1)
    | obj fs =>
      rw [validateRuleIdsGo]
      dsimp only
      cases hid : jsGet fs "id".toList with
      | none => simpa using ih seen (i + 1)
      | some v =>
        dsimp only
        cases htv : jsTruthy v with
        | false => simpa using ih seen (i + 1)
        | true =>
          rw [if_neg (by simp)]
          cases hrec : validateRuleIdsGo f (seen ++ [v]) (i + 1) rest with
          | ok es =>
            have hnotmem : JsVal.null ∉ rest := fun h => by
              have hx := (ih (seen ++ [v]) (i + 1)).mpr h
              rw [hrec] at hx
              exact absurd hx (by simp)
            simp [Except.map, hnotmem]
          | error e =>
            cases e
            have hmem := (ih (seen ++ [v]) (i + 1)).mp hrec
            simp [Except.map, hmem]

theorem validateRuleIds_error_iff (rules : List JsVal) (f : Str) :
    validateRuleIds rules f = .error () ↔ JsVal.null ∈ rules :=
  validateRuleIdsGo_error_iff f rules [] 0

/-- C5 (amended): `validateScenarioFile` either returns a result — a
scenario whose accompanying entries are all warning-severity (possibly
none), or no scenario, in which case an error-severity entry is present
unless the parsed document value is falsy (e.g. a `null` document), where
the result may carry no entry at all — or throws a `TypeError`, which
happens exactly when the document parses to a truthy value that passes
root validation but whose rules array contains a `null` entry (the bare
`rule.id` access in `validateRuleIds`). -/
theorem validateScenarioFile_spec (filePath : Str) (doc : YamlDoc) :
    (∀ r, validateScenarioFile filePath doc = .ok r →
      ((r.scenario.isSome = true →
          ∀ e ∈ r.errors, e.severity = ValidationSeverity.warning) ∧
       (r.scenario = none →
          (∃ e ∈ r.errors, e.severity = ValidationSeverity.error) ∨
            jsTruthy doc.data = false))) ∧
    (validateScenarioFile filePath doc = .error () ↔
      ((parseYamlStrict filePath doc).1 = some doc.data ∧
        jsTruthy doc.data = true ∧
        validateRootObject doc.data filePath = [] ∧
        JsVal.null ∈ scenarioRulesOf doc.data)) := by
  unfold validateScenarioFile
  dsimp only
  rcases hd : (parseYamlStrict filePath doc).1 with _ | d
  · refine ⟨fun r hr => ?_, ?_⟩
    · rw [Except.ok.injEq] at hr
      subst hr
      exact ⟨fun h => by simp at h,
        fun _ => Or.inl ((parseYamlStrict_spec filePath doc).1 hd)⟩
    · constructor
      · intro h; simp at h
      · rintro ⟨h1, -⟩
        simp at h1
  · obtain ⟨hdd, hewarn⟩ := (parseYamlStrict_spec filePath doc).2 d hd
    subst hdd
    cases hjt : jsTruthy doc.data with
    | false =>
      simp only [hjt, Bool.not_false, if_true]
      refine ⟨fun r hr => ?_, ?_⟩
      · rw [Except.ok.injEq] at hr
        subst hr
        exact ⟨fun h => by simp at h, fun _ => Or.inr (by simp)⟩
      · constructor
        · intro h; simp at h
        · rintro ⟨-, h2, -⟩
          simp at h2
    | true =>
      simp only [hjt, Bool.not_true, Bool.false_eq_true, if_false]
      by_cases hroot : validateRootObject doc.data filePath = []
      · rw [if_neg (not_not_intro hroot)]
        cases hids : validateRuleIds (scenarioRulesOf doc.data) filePath with
        | error e =>
          cases e
          refine ⟨fun r hr => by simp at hr, ?_⟩
          constructor
          · intro _
            exact ⟨trivial, trivial, hroot,
              (validateRuleIds_error_iff _ filePath).mp hids⟩
          · intro _
            rfl
        | ok idErrors =>
          dsimp only
          refine ⟨fun r hr => ?_, ?_⟩
          · by_cases ha : ((parseYamlStrict filePath doc).2 ++
                validateRootObject doc.data filePath ++
                ((scenarioRulesOf doc.data).enum.map
                  (fun p => validateRule p.2 filePath p.1)).flatten ++ idErrors ++
                validateScenarioName
                  (match doc.data with
                   | .obj fs =>
                     match jsGet fs "scenario".toList with
                     | some (.str s) => s
                     | _ => []
                   | _ => []) filePath).any
                (fun e => e.severity == ValidationSeverity.error) = true
            · rw [if_pos ha, Except.ok.injEq] at hr
              subst hr
              exact ⟨fun h => by simp at h, fun _ => Or.inl (any_error_exists _ ha)⟩
            · rw [if_neg ha, Except.ok.injEq] at hr
              subst hr
              exact ⟨fun _ => any_error_false_all_warning _ (Bool.eq_false_iff.mpr ha),
                fun h => by simp at h⟩
          · constructor
            · intro h
              split at h <;> exact Except.noConfusion h
            · rintro ⟨-, -, -, hnull⟩
              have hcon := (validateRuleIds_error_iff
                (scenarioRulesOf doc.data) filePath).mpr hnull
              rw [hids] at hcon
              exact Except.noConfusion hcon
      · rw [if_pos hroot]
        refine ⟨fun r hr => ?_, ?_⟩
        · rw [Except.ok.injEq] at hr
          subst hr
          refine ⟨fun h => by simp at h, fun _ => Or.inl ?_⟩
          rcases List.exists_mem_of_ne_nil _ hroot with ⟨e, he⟩
          exact ⟨e, List.mem_append_right _ he,
            validateRootObject_severity doc.data filePath e he⟩
        · constructor
          · intro h; simp at h
          · rintro ⟨-, -, h3, -⟩
            exact absurd h3 hroot

theorem validateScenarioFile_spec_witness :
    (∀ e ∈ ({ scenario := some (.obj
                  [("scenario".toList, .str "A".toList),
                    ("rules".toList, .arr [.obj [("match".toList,
                      .obj [("path".toList, .str "/x".toList)]),
                      ("respond".toList, .obj [("status".toList, .num 200)])]])]),
              errors := [{ file := "f.yaml".toList, path := [],
                            message := "unknown directive".toList,
                            severity := ValidationSeverity.warning }] } :
          ValidationResult).errors,
      e.severity = ValidationSeverity.warning) ∧
    ((∃ e ∈ ({ errors := [] } : ValidationResult).errors,
        e.severity = ValidationSeverity.error) ∨
      jsTruthy (JsVal.null) = false) ∧
    validateScenarioFile "f.yaml".toList
        { data := .obj [("scenario".toList, .str "A".toList),
            ("rules".toList, .arr [.null])] } = .error () :=
  ⟨((validateScenarioFile_spec "f.yaml".toList
      { warnings := [{ message := "unknown directive".toList }],
        data := .obj [("scenario".toList, .str "A".toList),
          ("rules".toList, .arr [.obj [("match".toList,
            .obj [("path".toList, .str "/x".toList)]),
            ("respond".toList, .obj [("status".toList, .num 200)])]])] }).1
      _ rfl).1 rfl,
   ((validateScenarioFile_spec "f.yaml".toList { data := .null }).1 _ rfl).2 rfl,
   (validateScenarioFile_spec "f.yaml".toList
      { data := .obj [("scenario".toList, .str "A".toList),
          ("rules".toList, .arr [.null])] }).2.mpr
     ⟨rfl, rfl, rfl, List.mem_cons_self _ _⟩⟩

/-- C5 counterexample: (a) a YAML document whose `toJS` value is `null`
(an empty scenario file) parses with no errors, and `validateScenarioFile`
returns neither a scenario nor any error entry; (b) a document carrying
one YAML parser warning together with a perfectly valid scenario body
yields the validated scenario accompanied by a warning-severity entry;
(c) a document whose rules array holds a `null` entry — which passes root
validation — makes `validateScenarioFile` throw a `TypeError` (the bare
`rule.id` access), returning neither branch of the claimed dichotomy. -/
theorem validateScenarioFile_claim_counterexample :
    ((validateScenarioFile "f.yaml".toList { data := .null }).map
        (fun r => (r.scenario.isSome, r.errors)) = .ok (false, [])) ∧
    ((validateScenarioFile "f.yaml".toList
        { warnings := [{ message := "unknown directive".toList }],
          data := .obj [("scenario".toList, .str "A".toList),
            ("rules".toList, .arr [.obj [("match".toList,
              .obj [("path".toList, .str "/x".toList)]),
              ("respond".toList, .obj [("status".toList, .num 200)])]])] }).map
        (fun r => (r.scenario.isSome, r.errors.map (fun e => e.severity))) =
      .ok (true, [ValidationSeverity.warning])) ∧
    validateScenarioFile "f.yaml".toList
        { data := .obj [("scenario".toList, .str "A".toList),
            ("rules".toList, .arr [.null])] } = .error () :=
  ⟨rfl, rfl, rfl⟩

/-! ### C9: files with warning-only validation results -/

theorem collectScenarios_ok (dir : Str) (files : List (Str × YamlDoc))
    (h : ∀ p ∈ files, ∃ q, validateScenarioFile p.1 p.2 = .ok q) :
    ∃ c, collectScenarios dir files = .ok c := by
  induction files with
  | nil => exact ⟨([], []), rfl⟩
  | cons p rest ih =>
    obtain ⟨g, d⟩ := p
    obtain ⟨q, hq⟩ := h (g, d) (List.mem_cons_self _ _)
    obtain ⟨c, hc⟩ := ih (fun p hp => h p (List.mem_cons_of_mem _ hp))
    rw [collectScenarios, hq]
    dsimp only
    rw [hc]
    dsimp only
    split
    · exact ⟨_, rfl⟩
    · split
      · exact ⟨_, rfl⟩
      · exact ⟨_, rfl⟩

theorem collectScenarios_mem_path (dir : Str) (files : List (Str × YamlDoc)) :
    ∀ c, collectScenarios dir files = .ok c →
      ∀ e ∈ c.1, e.sourcePath ∈ files.map Prod.fst := by
  induction files with
  | nil =>
    intro c hc e he
    simp only [collectScenarios, Except.ok.injEq] at hc
    rw [← hc] at he
    simp at he
  | cons p rest ih =>
    obtain ⟨g, d⟩ := p
    intro c hc e he
    simp only [collectScenarios] at hc
    split at hc
    · simp at hc
    next result hres =>
      split at hc
      · simp at hc
      next r hrec =>
        split at hc
        · rw [Except.ok.injEq] at hc
          subst hc
          exact List.mem_cons_of_mem _ (ih r hrec e he)
        · split at hc
          next d2 hscen =>
            rw [Except.ok.injEq] at hc
            subst hc
            rcases List.mem_cons.mp he with rfl | he'
            · exact List.mem_cons_self _ _
            · exact List.mem_cons_of_mem _ (ih r hrec e he')
          next hscen =>
            rw [Except.ok.injEq] at hc
            subst hc
            exact List.mem_cons_of_mem _ (ih r hrec e he)

theorem collectScenarios_excludes (dir : Str) (files : List (Str × YamlDoc))
    (f : Str) (doc : YamlDoc)
    (hmem : (f, doc) ∈ files)
    (hnd : (files.map Prod.fst).Nodup)
    (r0 : ValidationResult)
    (hval : validateScenarioFile f doc = .ok r0)
    (herr : r0.errors ≠ []) :
    ∀ c, collectScenarios dir files = .ok c → ∀ e ∈ c.1, e.sourcePath ≠ f := by
  induction files with
  | nil => simp at hmem
  | cons p rest ih =>
    obtain ⟨g, d⟩ := p
    simp only [List.map_cons, List.nodup_cons] at hnd
    intro c hc e he
    rcases List.mem_cons.mp hmem with heq | hmem'
    · obtain ⟨rfl, rfl⟩ := Prod.mk.injEq .. ▸ And.intro (congrArg Prod.fst heq)
        (congrArg Prod.snd heq)
      simp only [collectScenarios] at hc
      rw [hval] at hc
      dsimp only at hc
      split at hc
      · simp at hc
      next r hrec =>
        rw [if_pos (by simpa [List.length_pos] using herr),
          Except.ok.injEq] at hc
        subst hc
        intro hcon
        exact hnd.1 (hcon ▸ collectScenarios_mem_path dir rest r hrec e he)
    · have hgf : g ≠ f := by
        intro hcon
        exact hnd.1 (hcon ▸ List.mem_map_of_mem Prod.fst hmem')
      simp only [collectScenarios] at hc
      split at hc
      · simp at hc
      next result hres =>
        split at hc
        · simp at hc
        next r hrec =>
          split at hc
          · rw [Except.ok.injEq] at hc
            subst hc
            exact ih hmem' hnd.2 r hrec e he
          · split at hc
            next d2 hscen =>
              rw [Except.ok.injEq] at hc
              subst hc
              rcases List.mem_cons.mp he with rfl | he'
              · exact hgf
              · exact ih hmem' hnd.2 r hrec e he'
            next hscen =>
              rw [Except.ok.injEq] at hc
              subst hc
              exact ih hmem' hnd.2 r hrec e he

theorem collectScenarios_errors_from (dir : Str) (files : List (Str × YamlDoc)) :
    ∀ c, collectScenarios dir files = .ok c →
      ∀ e ∈ c.2, ∃ p ∈ files, ∃ q, validateScenarioFile p.1 p.2 = .ok q ∧
        e ∈ q.errors := by
  induction files with
  | nil =>
    intro c hc e he
    simp only [collectScenarios, Except.ok.injEq] at hc
    rw [← hc] at he
    simp at he
  | cons p rest ih =>
    obtain ⟨g, d⟩ := p
    intro c hc e he
    simp only [collectScenarios] at hc
    split at hc
    · simp at hc
    next result hres =>
      split at hc
      · simp at hc
      next r hrec =>
        split at hc
        · rw [Except.ok.injEq] at hc
          subst hc
          rcases List.mem_append.mp he with h | h
          · exact ⟨(g, d), List.mem_cons_self _ _, result, hres, h⟩
          · rcases ih r hrec e h with ⟨q, hq, qq, hqq, hqe⟩
            exact ⟨q, List.mem_cons_of_mem _ hq, qq, hqq, hqe⟩
        · split at hc
          next d2 hscen =>
            rw [Except.ok.injEq] at hc
            subst hc
            rcases ih r hrec e he with ⟨q, hq, qq, hqq, hqe⟩
            exact ⟨q, List.mem_cons_of_mem _ hq, qq, hqq, hqe⟩
          next hscen =>
            rw [Except.ok.injEq] at hc
            subst hc
            rcases ih r hrec e he with ⟨q, hq, qq, hqq, hqe⟩
            exact ⟨q, List.mem_cons_of_mem _ hq, qq, hqq, hqe⟩

/-- C9: a scenario file whose validation produces only warning-severity
entries (and at least one) does not abort loading — provided every file's
validation returns a result (rather than throwing) carrying no
error-severity entry and the accepted scenarios have no duplicate names —
but its scenario is excluded from the returned list: the loader skips a
file whenever its validation result contains any entry at all, regardless
of severity. -/
theorem loadScenarios_warning_spec (dir : Str) (files : List (Str × YamlDoc))
    (f : Str) (doc : YamlDoc)
    (hmem : (f, doc) ∈ files)
    (hnd : (files.map Prod.fst).Nodup)
    (r0 : ValidationResult)
    (hval : validateScenarioFile f doc = .ok r0)
    (herr : r0.errors ≠ [])
    (hwarnAll : ∀ p ∈ files, ∃ q, validateScenarioFile p.1 p.2 = .ok q ∧
      ∀ e ∈ q.errors, e.severity = ValidationSeverity.warning)
    (hset : ∀ c, collectScenarios dir files = .ok c →
      validateScenarioSet c.1 dir = []) :
    ∃ l, loadScenarios (some dir) files = .ok l ∧ ∀ e ∈ l, e.sourcePath ≠ f := by
  obtain ⟨c, hc⟩ := collectScenarios_ok dir files
    (fun p hp => (hwarnAll p hp).imp (fun q hq => hq.1))
  refine ⟨c.1, ?_, fun e he =>
    collectScenarios_excludes dir files f doc hmem hnd r0 hval herr c hc e he⟩
  unfold loadScenarios
  dsimp only
  rw [hc]
  dsimp only
  have hfilter : (c.2 ++
      (if c.1.length > 0 then validateScenarioSet c.1 dir
        else [])).filter (fun e => e.severity == ValidationSeverity.error) = [] := by
    rw [List.filter_eq_nil_iff]
    intro e he
    rcases List.mem_append.mp he with h | h
    · rcases collectScenarios_errors_from dir files c hc e h with ⟨p, hp, q, hq, hqe⟩
      obtain ⟨q2, hq2, hw⟩ := hwarnAll p hp
      rw [hq, Except.ok.injEq] at hq2
      subst hq2
      have := hw e hqe
      simp [this]
    · rw [hset c hc] at h
      split at h <;> simp at h
  rw [hfilter]
  simp

theorem loadScenarios_warning_spec_witness :
    ∃ l, loadScenarios (some "src".toList)
        [("a.yaml".toList,
          { warnings := [{ message := "w".toList }],
            data := .obj [("scenario".toList, .str "A".toList),
              ("rules".toList, .arr [.obj [("match".toList,
                .obj [("path".toList, .str "/x".toList)]),
                ("respond".toList, .obj [("status".toList, .num 200)])]])] }),
         ("b.yaml".toList,
          { data := .obj [("scenario".toList, .str "B".toList),
              ("rules".toList, .arr [.obj [("match".toList,
                .obj [("path".toList, .str "/x".toList)]),
                ("respond".toList, .obj [("status".toList, .num 200)])]])] })] =
        .ok l ∧
      ∀ e ∈ l, e.sourcePath ≠ "a.yaml".toList :=
  loadScenarios_warning_spec "src".toList _ "a.yaml".toList
    { warnings := [{ message := "w".toList }],
      data := .obj [("scenario".toList, .str "A".toList),
        ("rules".toList, .arr [.obj [("match".toList,
          .obj [("path".toList, .str "/x".toList)]),
          ("respond".toList, .obj [("status".toList, .num 200)])]])] }
    (List.mem_cons_self _ _) (by decide)
    _ rfl (by decide)
    (by
      intro p hp
      rcases List.mem_cons.mp hp with rfl | hp2
      · exact ⟨_, rfl, by decide⟩
      · rcases List.mem_cons.mp hp2 with rfl | h3
        · exact ⟨_, rfl, by decide⟩
        · simp at h3)
    (by
      intro c hc
      injection hc with h2
      rw [← h2]
      decide)

/-! ### C10: escaped open braces with no closing marker -/

/-- C10: at an escape `\{{` with no `}}` anywhere after it, the scanner
records no error, emits the two open braces as literal text (the
backslash is dropped), and continues scanning the remainder; whereas an
unescaped `{{` with no `}}` records a `malformed` error and stops,
flushing the pending buffer. -/
theorem parseGo_no_close_spec
    (T : List TemplateToken) (E : List TemplateError)
    (H : List TemplateHelperName) (F : Bool) (B : Str) (pos : Nat) (rest : Str)
    (h : indexOfClose rest = none) :
    parseGo T E H F B pos ('\\' :: '{' :: '{' :: rest) =
      parseGo T E H F (B ++ ['{', '{']) (pos + 3) rest ∧
    parseGo T E H F B pos ('{' :: '{' :: rest) =
      { tokens := T ++ (if B = [] then [] else [.text B]),
        errors := E ++ [{ code := .malformed, index := pos }],
        helpers := H, hasTemplates := F } := by
  constructor
  · rw [parseGo]
    simp [h]
  · rw [parseGo]
    simp [h]

theorem parseGo_no_close_spec_witness :
    parseGo [] [] [] false [] 0 ('\\' :: '{' :: '{' :: "ab".toList) =
      parseGo [] [] [] false ([] ++ ['{', '{']) (0 + 3) "ab".toList ∧
    parseGo [] [] [] false [] 0 ('{' :: '{' :: "ab".toList) =
      { tokens := [] ++ (if ([] : Str) = [] then [] else [.text []]),
        errors := [] ++ [{ code := .malformed, index := 0 }],
        helpers := [], hasTemplates := false } :=
  parseGo_no_close_spec [] [] [] false [] 0 "ab".toList rfl

/-! ### C7: escaped-only template strings -/

theorem drop_append_close (lit rest : Str) :
    (lit ++ '}' :: '}' :: rest).drop (lit.length + 2) = rest := by
  have h1 : (lit ++ '}' :: '}' :: rest) = (lit ++ ['}', '}']) ++ rest := by
    simp
  have h2 : (lit ++ ['}', '}']).length = lit.length + 2 := by
    simp
  rw [h1, ← h2, List.drop_left]

theorem parseGo_escapedOnly {s : Str} (h : EscapedOnly s) :
    ∀ (T : List TemplateToken) (E : List TemplateError)
      (H : List TemplateHelperName) (F : Bool) (B : Str) (pos : Nat),
      parseGo T E H F B pos s =
        { tokens := T ++
            (if B ++ unescape s = [] then [] else [.text (B ++ unescape s)]),
          errors := E, helpers := H, hasTemplates := F } := by
  induction h with
  | nil =>
    intro T E H F B pos
    simp [parseGo, unescape]
  | plain c rest h1 h2 h3 hrest ih =>
    intro T E H F B pos
    rw [parseGo, if_neg h1, if_neg h2, if_neg h3, ih, unescape, if_neg h1]
    simp
  | esc lit rest hclose hrest ih =>
    intro T E H F B pos
    rw [parseGo]
    rw [if_pos (by exact ⟨rfl, rfl⟩)]
    have hdrop2 : (('{' :: '{' :: (lit ++ '}' :: '}' :: rest)) : Str).drop 2 =
        lit ++ '}' :: '}' :: rest := rfl
    rw [hdrop2, hclose]
    have htake : (lit ++ '}' :: '}' :: rest).take lit.length = lit :=
      List.take_left lit _
    have hdrop : (lit ++ '}' :: '}' :: rest).drop (lit.length + 2) = rest :=
      drop_append_close lit rest
    dsimp only
    rw [htake, hdrop, ih]
    have hun : unescape ('\\' :: '{' :: '{' :: (lit ++ '}' :: '}' :: rest)) =
        '{' :: '{' :: (lit ++ '}' :: '}' :: unescape rest) := by
      have hc : ('\\' : Char) = '\\' ∧
          (('{' :: '{' :: (lit ++ '}' :: '}' :: rest)) : Str).take 2 =
            ['{', '{'] := ⟨rfl, rfl⟩
      rw [unescape, if_pos hc, hdrop2, hclose]
      dsimp only
      rw [htake, hdrop]
    rw [hun]
    simp

theorem unescape_eq_self_aux (k : Nat) :
    ∀ s : Str, s.length ≤ k → strIncludes s ['\\', '{', '{'] = false →
      unescape s = s := by
  induction k with
  | zero =>
    intro s hs _
    rw [List.length_eq_zero.mp (Nat.le_zero.mp hs)]
    simp [unescape]
  | succ k ih =>
    intro s hs hinc
    cases s with
    | nil => simp [unescape]
    | cons c rest =>
      have hsplit : (['\\', '{', '{'] : Str).isPrefixOf (c :: rest) = false ∧
          strIncludes rest ['\\', '{', '{'] = false := by
        rw [strIncludes] at hinc
        exact ⟨by
          cases hb : (['\\', '{', '{'] : Str).isPrefixOf (c :: rest) with
          | false => rfl
          | true => rw [hb] at hinc; simp at hinc,
          by
          cases hb : strIncludes rest ['\\', '{', '{'] with
          | false => rfl
          | true => rw [hb] at hinc; simp at hinc⟩
      have hcond : ¬(c = '\\' ∧ rest.take 2 = ['{', '{']) := by
        rintro ⟨rfl, ht⟩
        cases rest with
        | nil => simp at ht
        | cons a r2 =>
          cases r2 with
          | nil => simp [List.take] at ht
          | cons b r3 =>
            simp only [List.take, List.cons.injEq] at ht
            obtain ⟨rfl, rfl, -⟩ := ht
            have : (['\\', '{', '{'] : Str).isPrefixOf
                ('\\' :: '{' :: '{' :: r3) = true := by
              simp [List.isPrefixOf]
            rw [this] at hsplit
            simp at hsplit
      rw [unescape, if_neg hcond]
      have hlen : rest.length ≤ k := by
        simp only [List.length_cons] at hs
        omega
      rw [ih rest hlen hsplit.2]

theorem unescape_eq_self {s : Str} (h : strIncludes s ['\\', '{', '{'] = false) :
    unescape s = s :=
  unescape_eq_self_aux s.length s le_rfl h

/-- C7: a template string consisting only of plain text and escaped brace
sequences parses with no errors, no helpers and no template flag, and
rendering returns the text with each `\{{x}}` replaced by the literal
`{{x}}`, touching neither the counter state nor the helper record. -/
theorem renderString_escapedOnly (s : Str) (h : EscapedOnly s) (u n : Nat → Str)
    (st : HelperState) :
    parseTemplateString s =
      { tokens := if unescape s = [] then [] else [.text (unescape s)],
        errors := [], helpers := [], hasTemplates := false } ∧
    renderString u n s st = .ok (unescape s, [], st) := by
  have hparse : parseTemplateString s =
      { tokens := if unescape s = [] then [] else [.text (unescape s)],
        errors := [], helpers := [], hasTemplates := false } := by
    have := parseGo_escapedOnly h [] [] [] false [] 0
    simpa [parseTemplateString] using this
  refine ⟨hparse, ?_⟩
  unfold renderString
  rw [hparse]
  dsimp only
  rw [if_neg (by simp)]
  cases hesc : strIncludes s ['\\', '{', '{'] with
  | true =>
    rw [if_neg (by simp [hesc])]
    by_cases hu : unescape s = []
    · simp [hu, renderTokensGo]
    · simp [hu, renderTokensGo]
  | false =>
    rw [if_pos (by simp [hesc]), unescape_eq_self hesc]

theorem renderString_escapedOnly_witness :
    parseTemplateString ('\\' :: '{' :: '{' :: ("x".toList ++ '}' :: '}' :: "!".toList)) =
      { tokens := if unescape ('\\' :: '{' :: '{' ::
            ("x".toList ++ '}' :: '}' :: "!".toList)) = [] then []
          else [.text (unescape ('\\' :: '{' :: '{' ::
            ("x".toList ++ '}' :: '}' :: "!".toList)))],
        errors := [], helpers := [], hasTemplates := false } ∧
    renderString (fun _ => []) (fun _ => [])
        ('\\' :: '{' :: '{' :: ("x".toList ++ '}' :: '}' :: "!".toList)) ⟨0, 0, 0⟩ =
      .ok (unescape ('\\' :: '{' :: '{' :: ("x".toList ++ '}' :: '}' :: "!".toList)),
        [], ⟨0, 0, 0⟩) :=
  renderString_escapedOnly _
    (EscapedOnly.esc "x".toList "!".toList (by decide)
      (EscapedOnly.plain '!' [] (by decide) (by decide) (by decide) EscapedOnly.nil))
    (fun _ => []) (fun _ => []) ⟨0, 0, 0⟩

/-! ### C6: per-scenario increment sequences -/

theorem renderTokensGo_textOnly (u n : Nat → Str) (v : Nat) :
    ∀ (ts : List TemplateToken), (∀ t ∈ ts, isTextTok t = true) →
      ∀ (acc : Str) (used : List TemplateHelperName) (st : HelperState),
      renderTokensGo u n acc used st ts =
        (acc ++ (ts.map (tokenTextAt v)).flatten, used, st) := by
  intro ts
  induction ts with
  | nil => intro _ acc used st; simp [renderTokensGo]
  | cons t ts ih =>
    intro h acc used st
    cases t with
    | text s =>
      rw [renderTokensGo, ih (fun t ht => h t (List.mem_cons_of_mem _ ht))]
      simp [tokenTextAt]
    | helper hn =>
      have := h _ (List.mem_cons_self _ _)
      simp [isTextTok] at this

theorem renderTokensGo_append_textOnly (u n : Nat → Str) (v : Nat)
    (A ts : List TemplateToken) (hA : ∀ t ∈ A, isTextTok t = true)
    (acc : Str) (used : List TemplateHelperName) (st : HelperState) :
    renderTokensGo u n acc used st (A ++ ts) =
      renderTokensGo u n (acc ++ (A.map (tokenTextAt v)).flatten) used st ts := by
  induction A generalizing acc with
  | nil => simp
  | cons t A ih =>
    cases t with
    | text s =>
      rw [List.cons_append, renderTokensGo,
        ih (fun t ht => hA t (List.mem_cons_of_mem _ ht))]
      simp [tokenTextAt]
    | helper hn =>
      have := hA _ (List.mem_cons_self _ _)
      simp [isTextTok] at this

theorem renderString_incBody (u n : Nat → Str) (b : Str) (hb : IncBody b)
    (c x y : Nat) :
    renderString u n b ⟨c, x, y⟩ =
      .ok (renderIncAt b (c + 1), [.increment], ⟨c + 1, x, y⟩) := by
  obtain ⟨he, ht, A, B, htok, hA, hB⟩ := hb
  rw [renderString]
  simp only [he, ht]
  rw [if_neg (by simp)]
  rw [if_neg (by simp)]
  rw [htok, renderTokensGo_append_textOnly u n (c + 1) A _ hA, renderTokensGo]
  simp only [resolveHelper, mergeHelpers, List.foldl]
  rw [renderTokensGo_textOnly u n (c + 1) B hB]
  simp [renderIncAt, htok, tokenTextAt]

theorem rtGet_rtSet_same (m : RuntimeMap) (k : Str) (v : Nat) :
    rtGet (rtSet m k v) k = some v := by
  induction m with
  | nil => simp [rtGet, rtSet, List.find?]
  | cons p rest ih =>
    rw [rtSet]
    by_cases h : p.1 = k
    · rw [if_pos (by simpa using h)]
      simp [rtGet, List.find?]
    · rw [if_neg (by simpa using h)]
      rw [rtGet, List.find?]
      have hb : (p.1 == k) = false := by simpa using h
      rw [hb]
      exact ih

theorem rtGet_rtSet_other (m : RuntimeMap) (k q : Str) (v : Nat) (h : q ≠ k) :
    rtGet (rtSet m k v) q = rtGet m q := by
  have hqk : (k == q) = false := by simpa using fun e => h e.symm
  induction m with
  | nil => simp [rtGet, rtSet, List.find?, hqk]
  | cons p rest ih =>
    rw [rtSet]
    by_cases hp : p.1 = k
    · rw [if_pos (by simpa using hp)]
      rw [rtGet, rtGet, List.find?, List.find?, hqk]
      have : (p.1 == q) = false := by
        subst hp
        exact hqk
      rw [this]
    · rw [if_neg (by simpa using hp)]
      rw [rtGet, rtGet, List.find?, List.find?]
      cases hb : (p.1 == q) with
      | true => rfl
      | false => exact ih

theorem getTemplateRuntime_fst (m : RuntimeMap) (S : Str) :
    (getTemplateRuntime m S).1 = (rtGet m S).getD 0 := by
  rw [getTemplateRuntime]
  cases h : rtGet m S <;> simp [createTemplateRuntime]

theorem getTemplateRuntime_other (m : RuntimeMap) (S k : Str) (h : k ≠ S) :
    rtGet (getTemplateRuntime m S).2 k = rtGet m k := by
  rw [getTemplateRuntime]
  cases hg : rtGet m S
  · simp [rtGet_rtSet_other _ _ _ _ h]
  · simp

theorem renderForScenario_incBody (u n : Nat → Str) (m : RuntimeMap) (S b : Str)
    (hb : IncBody b) :
    renderForScenario u n m S b =
      (.ok (renderIncAt b ((rtGet m S).getD 0 + 1), [.increment]),
        rtSet (getTemplateRuntime m S).2 S ((rtGet m S).getD 0 + 1)) := by
  rw [renderForScenario]
  rw [getTemplateRuntime_fst]
  rw [renderString_incBody u n b hb]

theorem renderForScenario_preserves (u n : Nat → Str) (m : RuntimeMap)
    (sc b k : Str) (h : k ≠ sc) :
    rtGet (renderForScenario u n m sc b).2 k = rtGet m k := by
  rw [renderForScenario]
  cases hr : renderString u n b ⟨(getTemplateRuntime m sc).1, 0, 0⟩ with
  | ok r => simp [rtGet_rtSet_other _ _ _ _ h, getTemplateRuntime_other _ _ _ h]
  | error e => simp [getTemplateRuntime_other _ _ _ h]

theorem runRenders_inc_aux (u n : Nat → Str) (S : Str) :
    ∀ (evs : List (Str × Str)) (m : RuntimeMap),
      (∀ e ∈ evs, e.1 = S → IncBody e.2) →
      ((runRenders u n m evs).1.filterMap
          (fun p => if p.1 = S then some p.2 else none)) =
        expectedIncOuts ((rtGet m S).getD 0)
          (evs.filterMap (fun e => if e.1 = S then some e.2 else none)) ∧
      (rtGet (runRenders u n m evs).2 S).getD 0 =
        (rtGet m S).getD 0 +
          (evs.filterMap (fun e => if e.1 = S then some e.2 else none)).length := by
  intro evs
  induction evs with
  | nil => intro m h; simp [runRenders, expectedIncOuts]
  | cons ev evs ih =>
    intro m h
    obtain ⟨sc, b⟩ := ev
    rw [runRenders]
    by_cases hS : sc = S
    · subst hS
      have hb : IncBody b := h (sc, b) (List.mem_cons_self _ _) rfl
      rw [renderForScenario_incBody u n m sc b hb]
      dsimp only
      have hrec := ih (rtSet (getTemplateRuntime m sc).2 sc ((rtGet m sc).getD 0 + 1))
        (fun e he hh => h e (List.mem_cons_of_mem _ he) hh)
      rw [rtGet_rtSet_same] at hrec
      simp only [Option.getD_some] at hrec
      have hfc : (((sc, b) :: evs).filterMap
          (fun e => if e.1 = sc then some e.2 else none)) =
          b :: evs.filterMap (fun e => if e.1 = sc then some e.2 else none) := by
        simp
      have hout : ∀ (r : Except (List TemplateError) (Str × List TemplateHelperName))
          (X : List (Str × Except (List TemplateError) (Str × List TemplateHelperName))),
          ((sc, r) :: X).filterMap (fun p => if p.1 = sc then some p.2 else none) =
            r :: X.filterMap (fun p => if p.1 = sc then some p.2 else none) := by
        intro r X
        simp
      refine ⟨?_, ?_⟩
      · rw [hfc, hout, expectedIncOuts, hrec.1]
      · rw [hfc, hrec.2, List.length_cons]
        omega
    · have hrec := ih (renderForScenario u n m sc b).2
        (fun e he hh => h e (List.mem_cons_of_mem _ he) hh)
      rw [renderForScenario_preserves u n m sc b S (fun e => hS e.symm)] at hrec
      dsimp only
      have hfc : (((sc, b) :: evs).filterMap
          (fun e => if e.1 = S then some e.2 else none)) =
          evs.filterMap (fun e => if e.1 = S then some e.2 else none) := by
        simp [hS]
      have hout : ∀ (r : Except (List TemplateError) (Str × List TemplateHelperName))
          (X : List (Str × Except (List TemplateError) (Str × List TemplateHelperName))),
          ((sc, r) :: X).filterMap (fun p => if p.1 = S then some p.2 else none) =
            X.filterMap (fun p => if p.1 = S then some p.2 else none) := by
        intro r X
        simp [hS]
      refine ⟨?_, ?_⟩
      · rw [hfc, hout]
        exact hrec.1
      · rw [hfc]
        exact hrec.2

/-- C6: for every scenario name `S` and every sequence of renders —
arbitrarily interleaved with renders against other scenario names — in
which each render against `S` uses a body containing exactly one
`{{increment}}` helper, the outputs of the `S`-renders are exactly the
bodies rendered at the consecutive counter values 1, 2, …, N (a strictly
increasing decimal sequence with no repeats or gaps: renders against other
scenarios never disturb it), and `S`'s lazily created runtime counter
finishes at N. -/
theorem runRenders_increment_spec (u n : Nat → Str) (S : Str)
    (evs : List (Str × Str)) (h : ∀ e ∈ evs, e.1 = S → IncBody e.2) :
    ((runRenders u n [] evs).1.filterMap
        (fun p => if p.1 = S then some p.2 else none)) =
      expectedIncOuts 0
        (evs.filterMap (fun e => if e.1 = S then some e.2 else none)) ∧
    (rtGet (runRenders u n [] evs).2 S).getD 0 =
      (evs.filterMap (fun e => if e.1 = S then some e.2 else none)).length := by
  have hx := runRenders_inc_aux u n S evs [] h
  have h0 : rtGet ([] : RuntimeMap) S = none := by simp [rtGet, List.find?]
  rw [h0] at hx
  simpa using hx

theorem incBody_increment : IncBody "{{increment}}".toList := by
  have hp : parseTemplateString "{{increment}}".toList =
      { tokens := [.helper .increment], errors := [], helpers := [.increment],
        hasTemplates := true } := by
    simp +decide [parseTemplateString, parseGo, indexOfClose, strIncludes,
      asHelperName, TEMPLATE_HELPERS]
  exact ⟨by rw [hp], by rw [hp], [], [],
    by rw [hp]; rfl, by simp, by simp⟩

theorem runRenders_increment_spec_witness :
    (∀ e ∈ ([("s".toList, "{{increment}}".toList),
        ("t".toList, "{{increment}}".toList),
        ("s".toList, "{{increment}}".toList)] : List (Str × Str)),
      e.1 = "s".toList → IncBody e.2) ∧
    (((runRenders (fun _ => []) (fun _ => []) []
          [("s".toList, "{{increment}}".toList),
           ("t".toList, "{{increment}}".toList),
           ("s".toList, "{{increment}}".toList)]).1.filterMap
        (fun p => if p.1 = "s".toList then some p.2 else none)) =
      expectedIncOuts 0
        (([("s".toList, "{{increment}}".toList),
           ("t".toList, "{{increment}}".toList),
           ("s".toList, "{{increment}}".toList)] : List (Str × Str)).filterMap
          (fun e => if e.1 = "s".toList then some e.2 else none)) ∧
    (rtGet (runRenders (fun _ => []) (fun _ => []) []
          [("s".toList, "{{increment}}".toList),
           ("t".toList, "{{increment}}".toList),
           ("s".toList, "{{increment}}".toList)]).2 "s".toList).getD 0 =
      (([("s".toList, "{{increment}}".toList),
         ("t".toList, "{{increment}}".toList),
         ("s".toList, "{{increment}}".toList)] : List (Str × Str)).filterMap
        (fun e => if e.1 = "s".toList then some e.2 else none)).length) := by
  have hyp : ∀ e ∈ ([("s".toList, "{{increment}}".toList),
      ("t".toList, "{{increment}}".toList),
      ("s".toList, "{{increment}}".toList)] : List (Str × Str)),
      e.1 = "s".toList → IncBody e.2 := by
    intro e he _
    rcases List.mem_cons.mp he with rfl | he2
    · exact incBody_increment
    rcases List.mem_cons.mp he2 with rfl | he3
    · exact incBody_increment
    rcases List.mem_cons.mp he3 with rfl | he4
    · exact incBody_increment
    · exact absurd he4 (List.not_mem_nil _)
  exact ⟨hyp, runRenders_increment_spec (fun _ => []) (fun _ => [])
    "s".toList _ hyp⟩

/-- C1 counterexample: with an empty path pattern the source's truthiness
guard `if (match.path)` contributes 0, while the claim's formula gives 10.
Both rules below match the request; the claim's formula scores the
second-declared rule 10 against 7, so the claim demands it be returned,
but `findMatchingRule` returns the first rule (code scores 7 against 0). -/
theorem findMatchingRule_claim_counterexample :
    (evaluateRule
        { «match» := { path := [] }, respond := { status := 200 } }
        { method := "GET".toList, path := [], headers := [], query := [] }).matched
      = true ∧
    (evaluateRule
        { «match» := { path := "*".toList, method := some .GET },
          respond := { status := 200 } }
        { method := "GET".toList, path := [], headers := [], query := [] }).matched
      = true ∧
    claimScore { path := ([] : Str) } = 10 ∧
    claimScore { path := "*".toList, method := some HttpMethod.GET } = 7 ∧
    findMatchingRule
      [{ «match» := { path := "*".toList, method := some .GET },
         respond := { status := 200 } },
       { «match» := { path := [] }, respond := { status := 200 } }]
      { method := "GET".toList, path := [], headers := [], query := [] } =
      some { rule := { «match» := { path := "*".toList, method := some .GET },
                       respond := { status := 200 } },
             ruleIndex := 0 } :=
  ⟨by decide, by decide, by decide, by decide, rfl⟩

end MockHub
